import Mathlib

/-! WiFiScanner (ESPboy): scan aggregation, channel navigation and trail decay

A shallow embedding of `src/main.cpp`.

Conventions of the embedding:

* `uint8_t` / `uint16_t` values are natural numbers, reduced `% 256` / `% 65536`
  at every place where the C++ code narrows a result; `int32_t` values are
  integers.
* The global arrays `quality[CHANNELS]` and `devices[CHANNELS]` are maps from an
  index to a value, and every access is guarded by an explicit bounds check;
  an access at an index outside the array is reported as `Fault.outOfBounds`.
* `ap[CHANNELS][MAX_AP_PER_CHANNEL]` is one contiguous object of
  `CHANNELS * MAX_AP_PER_CHANNEL` cells; `ap[c][s]` is the cell number
  `c * MAX_AP_PER_CHANNEL + s`, whatever the value of `s`.  An access to a cell
  number past the end of the object is reported as `Fault.outOfBounds`.
* A loop whose bound cannot change and whose counter cannot wrap is a fold over
  the list of its counter values; the loops whose counter may wrap or whose exit
  depends on the data take a step budget and structural recursion on it.
* The program after `setup` is a sequence of events, each a pass of `loop()` or a
  call of the scan-completion callback; what a pass reads from outside (clock,
  fading, buttons) comes with the event.
-/

namespace WiFiScanner

/-! ## Machine integers -/

/-- Narrowing conversion of an `int` to `uint8_t`. -/
def toU8 (x : Int) : Nat := (x % 256).toNat

/-- Narrowing conversion of a non-negative `int` to `uint16_t`. -/
def toU16 (x : Nat) : Nat := x % 65536

/-! ## Global constants (main.cpp, lines 17-41) -/

def CHANNELS : Nat := 13
def MAX_AP_PER_CHANNEL : Nat := 4
def MAX_SSID_LENGTH : Nat := 14
def SCAN_PERIOD_MS : Nat := 3000
def BAR_WIDTH : Nat := 8
def BAR_GAP : Nat := 1
def GRAPH_WIDTH : Nat := (BAR_WIDTH * CHANNELS + (CHANNELS - 1) * BAR_GAP) % 256
def COLOR_DARK_GREY : Nat := 0x2104

/-- The value of `ENC_TYPE_NONE` in the ESP8266 WiFi headers (a library constant,
not part of this repository). -/
def ENC_TYPE_NONE : Nat := 7

/-- The value of `TFT_RED` in the display library (a library constant, not part
of this repository). -/
def TFT_RED : Nat := 0xF800

/-- What `main.cpp` takes from headers that are not in the source tree:
the display size (`ESPboy.h`), the glyph size (`font.h`) and Arduino's
`map(x, in_min, in_max, out_min, out_max)`. -/
structure Platform where
  TFT_WIDTH : Nat
  TFT_HEIGHT : Nat
  FONT_SIZE : Nat
  map : Int → Int → Int → Int → Int → Int

def GUI_HEIGHT (P : Platform) : Nat := (P.TFT_HEIGHT >>> 1) % 256
def GRAPH_HEIGHT (P : Platform) : Nat := toU8 ((GUI_HEIGHT P : Int) - ((P.FONT_SIZE : Int) + 1))
def BAR_HEIGHT (P : Platform) : Nat := ((GRAPH_HEIGHT P <<< 1) / 3) % 256

/-! ## Quality of a signal strength (main.cpp, line 274) -/

/-- The initialiser of `q` in `parseNetworks`:
`(r >= -50) ? 100 : ((r <= -100) ? 0 : (100 + r) << 1)`, narrowed to `uint8_t`. -/
def qualityOfRssi (r : Int) : Nat :=
  if r ≥ -50 then 100 else if r ≤ -100 then 0 else toU8 ((100 + r) * 2)

/-! ## Pixel decay (main.cpp, lines 115-132) -/

/-- The byte swap `x >> 8 | x << 8` stored in a `uint16_t`. -/
def swapBytes (x : Nat) : Nat := toU16 (x >>> 8 ||| x <<< 8)

/-- The three colour components read from the swapped word (lines 120-122). -/
def decodeR (color : Nat) : Nat := (color >>> 11) % 256
def decodeG (color : Nat) : Nat := ((color >>> 5) &&& 0x3f) % 256
def decodeB (color : Nat) : Nat := (color &&& 0x1f) % 256

/-- The body of the decay loop applied to one frame-buffer word `fb[i]`. -/
def decayPixel (p : Nat) : Nat :=
  if p ≠ 0 then
    let color := swapBytes p
    let r := decodeR color
    let g := decodeG color
    let b := decodeB color
    let r := if r > 1 then r - 1 else 0
    let g := if g > 2 then g - 2 else 0
    let b := if b > 1 then b - 1 else 0
    let color := toU16 (r <<< 11 ||| g <<< 5 ||| b)
    toU16 (color <<< 8 ||| color >>> 8)
  else p

/-- The decay loop over the whole frame buffer (every word is treated alike). -/
def decayPass (fb : List Nat) : List Nat := fb.map decayPixel

/-! ## Global variables (main.cpp, lines 47-71) -/

/-- The lifecycle phase `enum class State { INIT, FIRST_SCAN, SCAN }`. -/
inductive State
  | INIT
  | FIRST_SCAN
  | SCAN
deriving DecidableEq, Repr

/-- One access point, `struct WiFiAP`.  `ssid` is the 15-byte buffer. -/
structure WiFiAP where
  ssid : List Nat
  rssi : Int
  quality : Nat
  locked : Bool
deriving DecidableEq, Repr

/-- The ways in which a run of the embedded code can fail to give a result:
an access outside an array object, an integer division by zero, or a loop that
has not finished within the step budget given to it. -/
inductive Fault
  | outOfBounds
  | divisionByZero
  | outOfFuel
deriving DecidableEq, Repr

/-- The global variables of `main.cpp` that the scan and navigation code reads
and writes.  `ap` maps the cell number `c * MAX_AP_PER_CHANNEL + s` to `ap[c][s]`;
`last_ms` is the static local of `scanNetworks`. -/
structure Globals where
  state : State
  ap : Nat → WiFiAP
  scanning : Bool
  best_quality : Nat
  nb_of_devices : Nat
  higher_nb_of_devices : Nat
  quality : Nat → Nat
  devices : Nat → Nat
  current_channel : Nat
  last_ms : Nat

/-- One entry of the scan result held by the radio library: what
`WiFi.channel(i)`, `WiFi.SSID(i)` (its bytes before the terminator),
`WiFi.encryptionType(i)` and `WiFi.RSSI(i)` return for it. -/
structure RawRecord where
  channel : Int
  ssid : List Nat
  encryptionType : Nat
  rssi : Int
deriving DecidableEq, Repr

/-- Assignment to one element of an array: `a[k] = v`. -/
def setAt {α : Type} (a : Nat → α) (k : Nat) (v : α) : Nat → α :=
  fun i => if i = k then v else a i

/-- The cell number of `ap[c][s]` inside the object `ap`. -/
def cell (c s : Nat) : Nat := c * MAX_AP_PER_CHANNEL + s

/-- The number of cells of `ap`. -/
def AP_CELLS : Nat := CHANNELS * MAX_AP_PER_CHANNEL

/-! ## sortNetworks (main.cpp, lines 232-250) -/

/-- The body of the inner loop: compare `ap[c][i]` with `ap[c][j]` and exchange
them through `tmp` when the first has the smaller `rssi`. -/
def sortStep (c i : Nat) (ap : Nat → WiFiAP) (j : Nat) : Except Fault (Nat → WiFiAP) :=
  if cell c i < AP_CELLS ∧ cell c j < AP_CELLS then
    if (ap (cell c i)).rssi < (ap (cell c j)).rssi then
      let tmp := ap (cell c i)
      let ap1 := setAt ap (cell c i) (ap (cell c j))
      .ok (setAt ap1 (cell c j) tmp)
    else .ok ap
  else .error Fault.outOfBounds

/-- The two nested loops for one channel with `n = devices[c]`:
`for (i = 0; i < n - 1; ++i) for (j = 1; j < n; ++j)`. -/
def sortChannel (c n : Nat) (ap : Nat → WiFiAP) : Except Fault (Nat → WiFiAP) :=
  if n > 1 then
    (List.range (n - 1)).foldlM
      (fun ap i => (List.range' 1 (n - 1)).foldlM (sortStep c i) ap) ap
  else .ok ap

def sortNetworks (g : Globals) : Except Fault Globals :=
  (List.range CHANNELS).foldlM
    (fun g c => (sortChannel c (g.devices c) g.ap).map (fun ap => { g with ap := ap })) g

/-! ## parseNetworks (main.cpp, lines 252-308) -/

/-- The bytes left in `wap->ssid` by `strncpy(wap->ssid, s, MAX_SSID_LENGTH + 1)`
followed by the patch of the last two bytes when `l > MAX_SSID_LENGTH`,
where `l` is `strlen(s)` narrowed to `uint8_t`. -/
def storeSsid (s : List Nat) : List Nat :=
  let l := s.length % 256
  let buf := (s ++ List.replicate (MAX_SSID_LENGTH + 1) 0).take (MAX_SSID_LENGTH + 1)
  if l > MAX_SSID_LENGTH then (buf.set (MAX_SSID_LENGTH - 1) 127).set MAX_SSID_LENGTH 0
  else buf

/-- The record written through `wap` (lines 280-288). -/
def storedRecord (rec : RawRecord) : WiFiAP :=
  { ssid := storeSsid rec.ssid
    locked := decide (rec.encryptionType % 256 ≠ ENC_TYPE_NONE)
    rssi := rec.rssi
    quality := qualityOfRssi rec.rssi }

/-- The body of the loop over the scan result (lines 270-296) for one entry. -/
def parseRecord (g : Globals) (rec : RawRecord) : Except Fault Globals :=
  let c := toU8 (rec.channel - 1)
  let q := qualityOfRssi rec.rssi
  if c < CHANNELS then
    let stored : Except Fault (Nat → WiFiAP) :=
      if g.devices c ≤ MAX_AP_PER_CHANNEL then
        if cell c (g.devices c) < AP_CELLS then
          .ok (setAt g.ap (cell c (g.devices c)) (storedRecord rec))
        else .error Fault.outOfBounds
      else .ok g.ap
    stored.map fun ap =>
      let quality := if g.quality c < q then setAt g.quality c q else g.quality
      let best_quality := if g.best_quality < q then q else g.best_quality
      let devices := setAt g.devices c ((g.devices c + 1) % 256)
      let nb_of_devices := (g.nb_of_devices + 1) % 256
      let higher_nb_of_devices :=
        if g.higher_nb_of_devices < devices c then devices c else g.higher_nb_of_devices
      { g with
        ap := ap
        quality := quality
        best_quality := best_quality
        devices := devices
        nb_of_devices := nb_of_devices
        higher_nb_of_devices := higher_nb_of_devices }
  else .error Fault.outOfBounds

/-- The loop `for (uint8_t i = 0; i < n; ++i)` with `n` the number of entries
of the scan result; `i` is an 8-bit counter.  The first argument is the step
budget. -/
def parseLoop (raw : List RawRecord) : Nat → Nat → Globals → Except Fault Globals
  | 0, _, _ => .error Fault.outOfFuel
  | fuel + 1, i, g =>
    if (i : Int) < (raw.length : Int) then
      match raw[i]? with
      | some rec => (parseRecord g rec).bind (parseLoop raw fuel ((i + 1) % 256))
      | none => .error Fault.outOfBounds
    else .ok g

/-- The `switch (state)` at the head of `parseNetworks`. -/
def advanceState : State → State
  | State.INIT => State.FIRST_SCAN
  | State.FIRST_SCAN => State.SCAN
  | s => s

/-- Lines 262-266: the aggregates are reset (`memset` clears the `CHANNELS`
elements of each array). -/
def resetAggregates (g : Globals) : Globals :=
  { g with
    best_quality := 0
    nb_of_devices := 0
    higher_nb_of_devices := 0
    quality := fun i => if i < CHANNELS then 0 else g.quality i
    devices := fun i => if i < CHANNELS then 0 else g.devices i }

/-- The scan-completion callback `parseNetworks(n)`, called with the scan
result `raw` (`n = raw.length`), up to and including the call of
`sortNetworks`.  The call of `drawGraph` that ends it renders from the
resulting globals and is embedded as `drawGraph` below. -/
def parseNetworks (fuel : Nat) (raw : List RawRecord) (g : Globals) : Except Fault Globals :=
  if raw.length = 0 then .ok { g with scanning := false }
  else
    let g1 := resetAggregates { g with state := advanceState g.state }
    (parseLoop raw fuel 0 g1).bind fun g2 => sortNetworks { g2 with scanning := false }

/-! ## Channel navigation (main.cpp, lines 326-359) -/

/-- The loop of `seekBestQualityChannel` carries the pair `(q, c)`. -/
def seekBestQualityChannel (quality : Nat → Nat) : Nat :=
  ((List.range CHANNELS).foldl
    (fun (qc : Nat × Nat) i => if qc.1 < quality i then (quality i, i) else qc) (0, 0xff)).2

/-- The loop `while (c < 12 && cc == current_channel) { if (quality[++c]) cc = c; }`. -/
def seekRight (quality : Nat → Nat) (current_channel : Nat) : Nat → Nat → Nat → Except Fault Nat
  | 0, _, _ => .error Fault.outOfFuel
  | fuel + 1, c, cc =>
    if c < 12 ∧ cc = current_channel then
      let c1 := (c + 1) % 256
      if c1 < CHANNELS then
        seekRight quality current_channel fuel c1 (if quality c1 ≠ 0 then c1 else cc)
      else .error Fault.outOfBounds
    else .ok cc

/-- The loop `while (c > 0 && cc == current_channel) { if (quality[--c]) cc = c; }`. -/
def seekLeft (quality : Nat → Nat) (current_channel : Nat) : Nat → Nat → Nat → Except Fault Nat
  | 0, _, _ => .error Fault.outOfFuel
  | fuel + 1, c, cc =>
    if c > 0 ∧ cc = current_channel then
      let c1 := c - 1
      if c1 < CHANNELS then
        seekLeft quality current_channel fuel c1 (if quality c1 ≠ 0 then c1 else cc)
      else .error Fault.outOfBounds
    else .ok cc

/-- The value of `current_channel` after `seekNextChannel(to_the_right)`.
The loops get a budget of 256 steps, the number of values of their 8-bit
counter. -/
def seekNextChannel (quality : Nat → Nat) (current_channel : Nat) (to_the_right : Bool) :
    Except Fault Nat :=
  if current_channel = 0 ∧ to_the_right = false then .ok current_channel
  else if current_channel = 12 ∧ to_the_right = true then .ok current_channel
  else if to_the_right then seekRight quality current_channel 256 current_channel current_channel
  else seekLeft quality current_channel 256 current_channel current_channel

/-! ## The bars of drawGraph (main.cpp, lines 134-152) -/

/-- A colour argument: a packed constant or the result of `Color::hsv2rgb565(hue)`. -/
inductive Color
  | rgb565 (v : Nat)
  | hsv2rgb565 (hue : Int)
deriving DecidableEq, Repr

/-- The calls made on the frame buffer by the bar loop. -/
inductive DrawCmd
  | drawFastHLine (x y w : Int) (color : Color)
  | drawRect (x y w h : Int) (color : Color)
deriving DecidableEq, Repr

/-- The hue of row `y` of a bar of height `h`:
`map(y, 0, h - 1, 0, 120 * q / best_quality)`. -/
def rowHue (P : Platform) (g : Globals) (q h y : Nat) : Except Fault Int :=
  if g.best_quality = 0 then .error Fault.divisionByZero
  else .ok (P.map y 0 ((h : Int) - 1) 0 (Int.tdiv (120 * (q : Int)) (g.best_quality : Int)))

/-- The body of the bar loop for channel index `i`. -/
def drawBar (P : Platform) (g : Globals) (i : Nat) : Except Fault (List DrawCmd) :=
  let x := toU8 ((i : Int) * ((BAR_WIDTH : Int) + BAR_GAP))
  let q := g.quality i
  let n := g.devices i
  if n = 0 then
    .ok [DrawCmd.drawFastHLine x ((GRAPH_HEIGHT P : Int) - 1) BAR_WIDTH (Color.rgb565 TFT_RED)]
  else
    let h := toU8 (P.map n 0 g.higher_nb_of_devices 0 (BAR_HEIGHT P))
    (((List.range (h - 1)).mapM fun y =>
        (rowHue P g q h y).map fun hue =>
          DrawCmd.drawFastHLine ((x : Int) + 1) ((GRAPH_HEIGHT P : Int) - 1 - y)
            ((BAR_WIDTH : Int) - 2) (Color.hsv2rgb565 hue)).map fun rows =>
      DrawCmd.drawRect x ((GRAPH_HEIGHT P : Int) - h) BAR_WIDTH h (Color.rgb565 COLOR_DARK_GREY)
        :: rows)

/-- The bar loop `for (uint8_t i = 0; i < CHANNELS; ++i)` of `drawGraph`:
the drawing calls of all channels in order, or the first fault. -/
def drawGraph (P : Platform) (g : Globals) : Except Fault (List (List DrawCmd)) :=
  (List.range CHANNELS).mapM (drawBar P g)

/-! ## Values used to state the properties -/

/-- The globals when `setup` returns: C++ zero-initialises them, `state` is
`State::INIT` and `scanning` is `false`. -/
def boot : Globals :=
  { state := State.INIT
    ap := fun _ => { ssid := List.replicate (MAX_SSID_LENGTH + 1) 0, rssi := 0, quality := 0, locked := false }
    scanning := false
    best_quality := 0
    nb_of_devices := 0
    higher_nb_of_devices := 0
    quality := fun _ => 0
    devices := fun _ => 0
    current_channel := 0
    last_ms := 0 }

/-- Reduce by one with floor zero, as written in lines 124 and 126. -/
def fadeBy1 (x : Nat) : Nat := if x > 1 then x - 1 else 0

/-- Reduce by two with floor zero, as written in line 125. -/
def fadeBy2 (x : Nat) : Nat := if x > 2 then x - 2 else 0

/-- The RGB565 word with the given components. -/
def pack565 (r g b : Nat) : Nat := r * 2048 + g * 32 + b

/-- A quality array with networks on channel indices 3 and 9 only. -/
def sampleQuality : Nat → Nat := fun i => if i = 3 ∨ i = 9 then 50 else 0

/-- The channel index `c` of a scan entry: `WiFi.channel(i) - 1` narrowed to
`uint8_t` (line 270). -/
def channelIndex (rec : RawRecord) : Nat := toU8 (rec.channel - 1)

/-- The loop body applied to the entries of a scan result in their order. -/
def parseAll : Globals → List RawRecord → Except Fault Globals
  | g, [] => .ok g
  | g, rec :: rest => (parseRecord g rec).bind fun g1 => parseAll g1 rest

/-- The number of entries of a scan result with channel index `c`. -/
def countOn : List RawRecord → Nat → Nat
  | [], _ => 0
  | rec :: rest, c => (if channelIndex rec = c then 1 else 0) + countOn rest c

/-- The largest quality among the entries with channel index `c`, 0 if there is none. -/
def maxQualityOn : List RawRecord → Nat → Nat
  | [], _ => 0
  | rec :: rest, c =>
    if channelIndex rec = c then max (qualityOfRssi rec.rssi) (maxQualityOn rest c)
    else maxQualityOn rest c

/-- The largest quality among all entries, 0 if there is none. -/
def maxQuality : List RawRecord → Nat
  | [] => 0
  | rec :: rest => max (qualityOfRssi rec.rssi) (maxQuality rest)

/-- The fields of the globals other than `ap` agree. -/
def SameAggregates (g g1 : Globals) : Prop :=
  g1.state = g.state ∧ g1.scanning = g.scanning ∧ g1.best_quality = g.best_quality ∧
  g1.nb_of_devices = g.nb_of_devices ∧ g1.higher_nb_of_devices = g.higher_nb_of_devices ∧
  g1.quality = g.quality ∧ g1.devices = g.devices ∧
  g1.current_channel = g.current_channel ∧ g1.last_ms = g.last_ms

/-- The relation between `higher_nb_of_devices` and `devices`: an upper bound of
the `CHANNELS` counts that is one of them. -/
def HigherIsMax (g : Globals) : Prop :=
  (∀ c, c < CHANNELS → g.devices c ≤ g.higher_nb_of_devices) ∧
  ∃ c, c < CHANNELS ∧ g.devices c = g.higher_nb_of_devices

/-- The formula of Arduino's `map`, with C's truncating division; a zero
divisor is given the value 0 here (the bar loop calls `map` with a zero divisor
only where the embedding has already reported the fault or drawn nothing). -/
def arduinoMap (x in_min in_max out_min out_max : Int) : Int :=
  Int.tdiv ((x - in_min) * (out_max - out_min)) (in_max - in_min) + out_min

/-- A platform to evaluate the renderer on: a 128 x 128 display, 5-pixel glyphs
and Arduino's `map`. -/
def samplePlatform : Platform :=
  { TFT_WIDTH := 128
    TFT_HEIGHT := 128
    FONT_SIZE := 5
    map := arduinoMap }

/-- The scenario of the specification: "Home" (-45, secured) and "Guest" (-70,
open) on channel 6, "Cafe" (-60, secured) on channel 1. -/
def scenario : List RawRecord :=
  [ { channel := 6, ssid := [72, 111, 109, 101], encryptionType := 4, rssi := -45 },
    { channel := 6, ssid := [71, 117, 101, 115, 116], encryptionType := ENC_TYPE_NONE, rssi := -70 },
    { channel := 1, ssid := [67, 97, 102, 101], encryptionType := 4, rssi := -60 } ]

/-- An open network named by the single byte `name` on `channel`. -/
def openNetwork (channel : Int) (name : Nat) (rssi : Int) : RawRecord :=
  { channel := channel, ssid := [name], encryptionType := ENC_TYPE_NONE, rssi := rssi }

/-- Four networks on channel 1, strongest first. -/
def fourOnChannelOne : List RawRecord :=
  [openNetwork 1 65 (-40), openNetwork 1 66 (-50), openNetwork 1 67 (-60), openNetwork 1 68 (-70)]

/-- Five networks on channel 1, strongest first. -/
def fiveOnChannelOne : List RawRecord := fourOnChannelOne ++ [openNetwork 1 69 (-80)]

/-- Five networks on channel 13. -/
def fiveOnChannelThirteen : List RawRecord :=
  [openNetwork 13 65 (-40), openNetwork 13 66 (-50), openNetwork 13 67 (-60),
    openNetwork 13 68 (-70), openNetwork 13 69 (-80)]

/-- One network on channel 1 at -100 dBm, whose quality is 0. -/
def weakOnChannelOne : List RawRecord := [openNetwork 1 87 (-100)]

/-- The stored signal strengths of bucket `c`: slots `0 .. min(devices[c], K) - 1`. -/
def bucketRssi (g : Globals) (c : Nat) : List Int :=
  (List.range (min (g.devices c) MAX_AP_PER_CHANNEL)).map fun s => (g.ap (cell c s)).rssi

/-- Six networks on channel 1: five at -90 dBm, then one at -55 dBm. -/
def sixOnChannelOne : List RawRecord :=
  [openNetwork 1 65 (-90), openNetwork 1 66 (-90), openNetwork 1 67 (-90),
    openNetwork 1 68 (-90), openNetwork 1 69 (-90), openNetwork 1 70 (-55)]

/-! ## scanNetworks, update and loop (main.cpp, lines 310-324 and 394-429) -/

/-- Narrowing conversion of an integer to `uint32_t`. -/
def toU32 (x : Int) : Nat := (x % 4294967296).toNat

/-- The call `scanNetworks()` made when `millis()` returns `now`.  The second
component tells whether `WiFi.scanNetworksAsync(parseNetworks, true)` was
called. -/
def scanNetworks (now : Nat) (g : Globals) : Globals × Bool :=
  let now32 := toU32 now
  if toU32 ((now32 : Int) - (g.last_ms : Int)) < SCAN_PERIOD_MS then (g, false)
  else
    let g1 := { g with last_ms := now32 }
    if g1.scanning then (g1, false)
    else ({ g1 with scanning := true }, true)

/-- The reads of `drawGUI` (lines 164-218): `devices[current_channel]` and
`ap[current_channel][i]` for `i < devices[current_channel]`.  It writes none of
the globals. -/
def drawGUI (g : Globals) : Except Fault Unit :=
  if g.current_channel ≠ 0xff then
    if g.current_channel < CHANNELS then
      (List.range (g.devices g.current_channel)).forM fun i =>
        if cell g.current_channel i < AP_CELLS then .ok () else .error Fault.outOfBounds
    else .error Fault.outOfBounds
  else .ok ()

/-- What one pass of the control loop reads from outside: `millis()`,
`espboy.fading()` and the two `pressed` events. -/
structure Tick where
  now : Nat
  fading : Bool
  left : Bool
  right : Bool
deriving DecidableEq, Repr

/-- The function `update()`: a navigation request, then `drawGUI()`. -/
def update (t : Tick) (g : Globals) : Except Fault Globals :=
  let moved : Except Fault Globals :=
    if t.left then
      (seekNextChannel g.quality g.current_channel false).map fun cc =>
        { g with current_channel := cc }
    else if t.right then
      (seekNextChannel g.quality g.current_channel true).map fun cc =>
        { g with current_channel := cc }
    else .ok g
  moved.bind fun g1 => (drawGUI g1).map fun _ => g1

/-- The function `loop()`. -/
def loop (t : Tick) (g : Globals) : Except Fault Globals :=
  match g.state with
  | State.INIT => if t.fading then .ok g else .ok (scanNetworks t.now g).1
  | State.FIRST_SCAN =>
    .ok { g with current_channel := seekBestQualityChannel g.quality, state := State.SCAN }
  | State.SCAN => update t (scanNetworks t.now g).1

/-- What happens to the program after `setup`: a pass of `loop()` or the
completion callback `parseNetworks(n)` with a scan result. -/
inductive Event
  | tick (t : Tick)
  | scanDone (raw : List RawRecord)
deriving DecidableEq, Repr

/-- The effect of one event.  The callback runs `parseNetworks` with a budget of
256 rounds for its 8-bit loop and, when the result is not empty, ends with the
bar loop of `drawGraph`. -/
def step (P : Platform) (g : Globals) : Event → Except Fault Globals
  | Event.tick t => loop t g
  | Event.scanDone raw =>
    (parseNetworks 256 raw g).bind fun g1 =>
      if raw.length = 0 then .ok g1 else (drawGraph P g1).map fun _ => g1

/-- The globals after a sequence of events, or the first fault. -/
def run (P : Platform) : Globals → List Event → Except Fault Globals
  | g, [] => .ok g
  | g, e :: rest => (step P g e).bind fun g1 => run P g1 rest

/-- The rank of a lifecycle phase in the order INIT < FIRST_SCAN < SCAN. -/
def State.rank : State → Nat
  | State.INIT => 0
  | State.FIRST_SCAN => 1
  | State.SCAN => 2

/-- An event performs the automatic best-channel selection when it is a pass of
`loop()` taken in the phase FIRST_SCAN (line 419). -/
def autoSelects (g : Globals) : Event → Bool
  | Event.tick _ => decide (g.state = State.FIRST_SCAN)
  | Event.scanDone _ => false

/-- The number of automatic selections performed along a sequence of events
(up to its end or its first fault). -/
def autoSelections (P : Platform) : Globals → List Event → Nat
  | _, [] => 0
  | g, e :: rest =>
    (if autoSelects g e then 1 else 0) +
      match step P g e with
      | .ok g1 => autoSelections P g1 rest
      | .error _ => 0

/-- The lifecycle phases met along a sequence of events, the first one included
(up to its end or its first fault). -/
def phases (P : Platform) : Globals → List Event → List State
  | g, [] => [g.state]
  | g, e :: rest =>
    g.state ::
      match step P g e with
      | .ok g1 => phases P g1 rest
      | .error _ => []

/-- A pass of `loop()` at `now` ms, not fading, no button pressed. -/
def idleTick (now : Nat) : Event :=
  Event.tick { now := now, fading := false, left := false, right := false }

/-- A start of the program: a pass that requests the first scan, its completion
with the scenario of the specification, and the pass that selects a channel. -/
def sampleEvents : List Event :=
  [idleTick 3000, Event.scanDone scenario, idleTick 3100]

/-- The C string held by a buffer: its bytes before the first 0. -/
def cString (buf : List Nat) : List Nat := buf.takeWhile fun b => decide (b ≠ 0)

def GRAPH_ZOOM_X (P : Platform) : ℚ := 1 - 2 / (BAR_HEIGHT P : ℚ)
def GRAPH_ZOOM_Y : ℚ := 1 - 2 / (GRAPH_WIDTH : ℚ)

/-- A scan entry whose identifier has 20 bytes. -/
def longNamed : RawRecord :=
  { channel := 1, ssid := List.range' 65 20, encryptionType := 4, rssi := -60 }

/-- Five networks on channel 1, the fifth the strongest, then one on channel 2. -/
def crossTalk : List RawRecord :=
  [openNetwork 1 65 (-50), openNetwork 1 66 (-60), openNetwork 1 67 (-70),
    openNetwork 1 68 (-80), openNetwork 1 69 (-40), openNetwork 2 70 (-45)]

/-- The entries of a scan result with channel index `c`, in their order of
arrival. -/
def arrivals (raw : List RawRecord) (c : Nat) : List RawRecord :=
  raw.filter fun r => decide (channelIndex r = c)

/-- The records held in bucket `c`: slots `0 .. min(devices[c], K) - 1`. -/
def bucket (g : Globals) (c : Nat) : List WiFiAP :=
  (List.range (min (g.devices c) MAX_AP_PER_CHANNEL)).map fun s => g.ap (cell c s)

/-- C4: for every signed 32-bit signal strength `r` the quality computed during
ingest is 100 when `r >= -50`, 0 when `r <= -100` and `(100 + r) * 2` strictly
in between; it is at most 100, and the quality of -75 is 50. -/
theorem qualityOfRssi_piecewise (r : Int) (hlo : -2147483648 ≤ r) (hhi : r ≤ 2147483647) :
    (-50 ≤ r → qualityOfRssi r = 100) ∧
    (r ≤ -100 → qualityOfRssi r = 0) ∧
    (-100 < r → r < -50 → (qualityOfRssi r : Int) = (100 + r) * 2) ∧
    qualityOfRssi r ≤ 100 ∧
    qualityOfRssi (-75) = 50 := by
  unfold qualityOfRssi toU8
  refine ⟨?_, ?_, ?_, ?_, by decide⟩
  · intro h; simp [h]
  · intro h
    have h1 : ¬ (r ≥ -50) := by omega
    simp [h1, h]
  · intro h1 h2
    have h3 : ¬ (r ≥ -50) := by omega
    have h4 : ¬ (r ≤ -100) := by omega
    simp only [h3, h4, if_false]
    omega
  · split
    · omega
    · split
      · omega
      · omega

theorem qualityOfRssi_piecewise_witness :
    (-2147483648 : Int) ≤ -60 ∧ (-60 : Int) ≤ 2147483647 ∧ (qualityOfRssi (-60) : Int) = (100 + -60) * 2 :=
  ⟨by decide, by decide,
    (qualityOfRssi_piecewise (-60) (by decide) (by decide)).2.2.1 (by decide) (by decide)⟩

/-! ## Empty scan result -/

/-- C9: `parseNetworks` called with an empty scan result (`n = 0`) returns with
every aggregate, every cell of `ap`, the lifecycle phase and the other globals
as they were, and with the in-flight flag `scanning` cleared. -/
theorem parseNetworks_empty (fuel : Nat) (g : Globals) :
    ∃ g1, parseNetworks fuel [] g = .ok g1 ∧
      g1.quality = g.quality ∧ g1.devices = g.devices ∧
      g1.best_quality = g.best_quality ∧ g1.nb_of_devices = g.nb_of_devices ∧
      g1.higher_nb_of_devices = g.higher_nb_of_devices ∧
      g1.ap = g.ap ∧ g1.state = g.state ∧
      g1.current_channel = g.current_channel ∧ g1.last_ms = g.last_ms ∧
      g1.scanning = false :=
  ⟨{ g with scanning := false }, rfl, rfl, rfl, rfl, rfl, rfl, rfl, rfl, rfl, rfl, rfl⟩

/-! ## Pixel decay -/

theorem swapBytes_eq (x : Nat) (hx : x < 65536) : swapBytes x = (x % 256) * 256 + x / 256 := by
  have h : x >>> 8 ||| x <<< 8 = x * 256 + x / 256 := by
    rw [Nat.shiftLeft_eq, Nat.shiftRight_eq_div_pow, Nat.lor_comm, Nat.mul_comm x]
    have := @Nat.mul_add_lt_is_or 8 (x / 2 ^ 8) (by norm_num; omega) x
    rw [← this]; norm_num
  unfold swapBytes toU16
  rw [h]; omega

theorem swapBytes_lt (x : Nat) : swapBytes x < 65536 := by
  unfold swapBytes toU16; omega

theorem pack_eq (r g b : Nat) (hg : g < 64) (hb : b < 32) :
    r <<< 11 ||| g <<< 5 ||| b = r * 2048 + g * 32 + b := by
  rw [Nat.shiftLeft_eq, Nat.shiftLeft_eq]
  have h1 := @Nat.mul_add_lt_is_or 11 (g * 2 ^ 5) (by norm_num; omega) r
  have h2 := @Nat.mul_add_lt_is_or 5 b (by norm_num; omega) (r * 64 + g)
  have e1 : r * 2 ^ 11 ||| g * 2 ^ 5 = r * 2048 + g * 32 := by
    rw [Nat.mul_comm r, ← h1]; norm_num; omega
  rw [e1]
  have e2 : r * 2048 + g * 32 = 2 ^ 5 * (r * 64 + g) := by norm_num; omega
  rw [e2, ← h2]

theorem decodeR_eq (c : Nat) (hc : c < 65536) : decodeR c = c / 2048 := by
  unfold decodeR; rw [Nat.shiftRight_eq_div_pow]; norm_num; omega

theorem decodeG_eq (c : Nat) : decodeG c = (c / 32) % 64 := by
  unfold decodeG; rw [Nat.shiftRight_eq_div_pow]
  have := Nat.and_pow_two_sub_one_eq_mod (c / 2 ^ 5) 6
  norm_num at this ⊢; rw [this]; omega

theorem decodeB_eq (c : Nat) : decodeB c = c % 32 := by
  unfold decodeB
  have := Nat.and_pow_two_sub_one_eq_mod c 5
  norm_num at this ⊢; rw [this]; omega

/-- The decay of one word, in arithmetic: swap, fade each component, pack, swap. -/
theorem decayPixel_eq (p : Nat) (hp : p < 65536) :
    decayPixel p =
      swapBytes (pack565 (fadeBy1 (decodeR (swapBytes p))) (fadeBy2 (decodeG (swapBytes p)))
        (fadeBy1 (decodeB (swapBytes p)))) := by
  have hs : swapBytes p < 65536 := swapBytes_lt p
  have hr := decodeR_eq _ hs
  have hg := decodeG_eq (swapBytes p)
  have hb := decodeB_eq (swapBytes p)
  by_cases h0 : p = 0
  · subst h0; decide
  · have hr1 : fadeBy1 (decodeR (swapBytes p)) < 32 := by unfold fadeBy1; split <;> omega
    have hg1 : fadeBy2 (decodeG (swapBytes p)) < 64 := by unfold fadeBy2; split <;> omega
    have hb1 : fadeBy1 (decodeB (swapBytes p)) < 32 := by unfold fadeBy1; split <;> omega
    have e : decayPixel p =
        toU16 (toU16 (fadeBy1 (decodeR (swapBytes p)) <<< 11 |||
            fadeBy2 (decodeG (swapBytes p)) <<< 5 ||| fadeBy1 (decodeB (swapBytes p))) <<< 8 |||
          toU16 (fadeBy1 (decodeR (swapBytes p)) <<< 11 |||
            fadeBy2 (decodeG (swapBytes p)) <<< 5 ||| fadeBy1 (decodeB (swapBytes p))) >>> 8) := by
      unfold decayPixel; rw [if_pos h0]; rfl
    rw [e, pack_eq _ _ _ hg1 hb1]
    have hw : toU16 (fadeBy1 (decodeR (swapBytes p)) * 2048 +
        fadeBy2 (decodeG (swapBytes p)) * 32 + fadeBy1 (decodeB (swapBytes p))) =
        pack565 (fadeBy1 (decodeR (swapBytes p))) (fadeBy2 (decodeG (swapBytes p)))
          (fadeBy1 (decodeB (swapBytes p))) := by
      unfold toU16 pack565; omega
    rw [hw]
    unfold swapBytes
    rw [Nat.lor_comm]

theorem decayPixel_lt (p : Nat) (hp : p < 65536) : decayPixel p < 65536 := by
  rw [decayPixel_eq p hp]; exact swapBytes_lt _

/-- The components read back from a decayed word are the faded components. -/
theorem decode_decayPixel (p : Nat) (hp : p < 65536) :
    decodeR (swapBytes (decayPixel p)) = fadeBy1 (decodeR (swapBytes p)) ∧
    decodeG (swapBytes (decayPixel p)) = fadeBy2 (decodeG (swapBytes p)) ∧
    decodeB (swapBytes (decayPixel p)) = fadeBy1 (decodeB (swapBytes p)) := by
  have hs : swapBytes p < 65536 := swapBytes_lt p
  have hr := decodeR_eq _ hs
  have hg := decodeG_eq (swapBytes p)
  have hb := decodeB_eq (swapBytes p)
  have hr1 : fadeBy1 (decodeR (swapBytes p)) < 32 := by unfold fadeBy1; split <;> omega
  have hg1 : fadeBy2 (decodeG (swapBytes p)) < 64 := by unfold fadeBy2; split <;> omega
  have hb1 : fadeBy1 (decodeB (swapBytes p)) < 32 := by unfold fadeBy1; split <;> omega
  rw [decayPixel_eq p hp]
  generalize fadeBy1 (decodeR (swapBytes p)) = r at hr1 ⊢
  generalize fadeBy2 (decodeG (swapBytes p)) = gg at hg1 ⊢
  generalize fadeBy1 (decodeB (swapBytes p)) = b at hb1 ⊢
  have hw : pack565 r gg b < 65536 := by unfold pack565; omega
  have hsw : swapBytes (swapBytes (pack565 r gg b)) = pack565 r gg b := by
    rw [swapBytes_eq _ (swapBytes_lt _), swapBytes_eq _ hw]; omega
  rw [hsw, decodeR_eq _ hw, decodeG_eq, decodeB_eq]
  unfold pack565
  refine ⟨by omega, by omega, by omega⟩

theorem decayPixel_iterate_lt (p : Nat) (hp : p < 65536) (k : Nat) : decayPixel^[k] p < 65536 := by
  induction k with
  | zero => simpa using hp
  | succ k ih => rw [Function.iterate_succ_apply']; exact decayPixel_lt _ ih

theorem decode_decayPixel_iterate (p : Nat) (hp : p < 65536) (k : Nat) :
    decodeR (swapBytes (decayPixel^[k] p)) = fadeBy1^[k] (decodeR (swapBytes p)) ∧
    decodeG (swapBytes (decayPixel^[k] p)) = fadeBy2^[k] (decodeG (swapBytes p)) ∧
    decodeB (swapBytes (decayPixel^[k] p)) = fadeBy1^[k] (decodeB (swapBytes p)) := by
  induction k with
  | zero => simp
  | succ k ih =>
    have h := decode_decayPixel _ (decayPixel_iterate_lt p hp k)
    simp only [Function.iterate_succ_apply']
    rw [h.1, h.2.1, h.2.2, ih.1, ih.2.1, ih.2.2]
    exact ⟨rfl, rfl, rfl⟩

theorem fadeBy1_iterate_le (x k : Nat) : fadeBy1^[k] x ≤ x - k := by
  induction k with
  | zero => simp
  | succ k ih =>
    rw [Function.iterate_succ_apply']
    unfold fadeBy1 at ih ⊢
    split <;> omega

theorem fadeBy2_iterate_le (x k : Nat) (hx : x < 64) : fadeBy2^[k] x ≤ 64 - 2 * k := by
  induction k with
  | zero => simp; omega
  | succ k ih =>
    rw [Function.iterate_succ_apply']
    unfold fadeBy2 at ih ⊢
    split <;> omega

/-- A 16-bit word whose three components are zero is the zero word. -/
theorem eq_zero_of_components (p : Nat) (hp : p < 65536)
    (hr : decodeR (swapBytes p) = 0) (hg : decodeG (swapBytes p) = 0)
    (hb : decodeB (swapBytes p) = 0) : p = 0 := by
  rw [decodeR_eq _ (swapBytes_lt p)] at hr
  rw [decodeG_eq] at hg
  rw [decodeB_eq] at hb
  rw [swapBytes_eq p hp] at hr hg hb
  omega

/-- C10: for every 16-bit frame-buffer word `p`, each application of the decay
pass leaves none of the three decoded 5-6-5 components (read after the byte
swap) larger than before, a zero word stays zero, and from the 32nd application
on the word is exactly zero. -/
theorem decay_monotone_to_zero (p : Nat) (hp : p < 65536) :
    (∀ k, decodeR (swapBytes (decayPixel^[k + 1] p)) ≤ decodeR (swapBytes (decayPixel^[k] p)) ∧
          decodeG (swapBytes (decayPixel^[k + 1] p)) ≤ decodeG (swapBytes (decayPixel^[k] p)) ∧
          decodeB (swapBytes (decayPixel^[k + 1] p)) ≤ decodeB (swapBytes (decayPixel^[k] p))) ∧
    decayPixel 0 = 0 ∧
    (∀ k, 32 ≤ k → decayPixel^[k] p = 0) := by
  refine ⟨?_, by decide, ?_⟩
  · intro k
    have h := decode_decayPixel _ (decayPixel_iterate_lt p hp k)
    simp only [Function.iterate_succ_apply']
    rw [h.1, h.2.1, h.2.2]
    unfold fadeBy1 fadeBy2
    refine ⟨?_, ?_, ?_⟩ <;> split <;> omega
  · intro k hk
    have h := decode_decayPixel_iterate p hp k
    have hs := swapBytes_lt p
    have hr := decodeR_eq _ hs
    have hg := decodeG_eq (swapBytes p)
    have hb := decodeB_eq (swapBytes p)
    have h1 := fadeBy1_iterate_le (decodeR (swapBytes p)) k
    have h2 := fadeBy2_iterate_le (decodeG (swapBytes p)) k (by omega)
    have h3 := fadeBy1_iterate_le (decodeB (swapBytes p)) k
    apply eq_zero_of_components _ (decayPixel_iterate_lt p hp k)
    · rw [h.1]; omega
    · rw [h.2.1]; omega
    · rw [h.2.2]; omega

theorem decay_monotone_to_zero_witness :
    (0xffff : Nat) < 65536 ∧ decayPixel^[32] 0xffff = 0 ∧
      decodeG (swapBytes (decayPixel 0xffff)) ≤ decodeG (swapBytes 0xffff) :=
  ⟨by decide, (decay_monotone_to_zero 0xffff (by decide)).2.2 32 (by decide),
    ((decay_monotone_to_zero 0xffff (by decide)).1 0).2.1⟩

/-! ## Channel navigation -/

/-- After the first `n` rounds of the loop of `seekBestQualityChannel`, `q` is the
largest quality met and `c` the first index where it was met (`0xff` if `q` is 0). -/
theorem seekBest_invariant (quality : Nat → Nat) (n : Nat) :
    let qc := (List.range n).foldl
      (fun (qc : Nat × Nat) i => if qc.1 < quality i then (quality i, i) else qc) (0, 0xff)
    (∀ i, i < n → quality i ≤ qc.1) ∧ (qc.1 = 0 → qc.2 = 0xff) ∧
      (qc.1 ≠ 0 → qc.2 < n ∧ quality qc.2 = qc.1 ∧ ∀ i, i < qc.2 → quality i < qc.1) := by
  induction n with
  | zero => simp
  | succ n ih =>
    rw [List.range_succ, List.foldl_append]
    simp only [List.foldl_cons, List.foldl_nil]
    generalize (List.range n).foldl
      (fun (qc : Nat × Nat) i => if qc.1 < quality i then (quality i, i) else qc) (0, 0xff) = qc
      at ih ⊢
    obtain ⟨h1, h2, h3⟩ := ih
    by_cases hlt : qc.1 < quality n
    · simp only [hlt, if_true]
      refine ⟨?_, ?_, ?_⟩
      · intro i hi
        rcases Nat.lt_succ_iff_lt_or_eq.mp hi with h | h
        · have := h1 i h; omega
        · subst h; exact le_refl _
      · intro h; omega
      · intro _
        refine ⟨Nat.lt_succ_self n, trivial, ?_⟩
        intro i hi
        have := h1 i hi; omega
    · simp only [hlt, if_false]
      refine ⟨?_, h2, ?_⟩
      · intro i hi
        rcases Nat.lt_succ_iff_lt_or_eq.mp hi with h | h
        · exact h1 i h
        · subst h; omega
      · intro h
        obtain ⟨a, b, c⟩ := h3 h
        exact ⟨by omega, b, c⟩

/-- C7: `seekBestQualityChannel` returns 0xff ("none") when all 13 qualities are
0, and otherwise the lowest index whose quality is the maximum of the array. -/
theorem seekBestQualityChannel_spec (quality : Nat → Nat) :
    if ∀ i, i < CHANNELS → quality i = 0 then seekBestQualityChannel quality = 0xff
    else seekBestQualityChannel quality < CHANNELS ∧
      (∀ i, i < CHANNELS → quality i ≤ quality (seekBestQualityChannel quality)) ∧
      (∀ i, i < seekBestQualityChannel quality →
        quality i < quality (seekBestQualityChannel quality)) := by
  have h := seekBest_invariant quality CHANNELS
  simp only at h
  obtain ⟨h1, h2, h3⟩ := h
  unfold seekBestQualityChannel
  generalize (List.range CHANNELS).foldl
      (fun (qc : Nat × Nat) i => if qc.1 < quality i then (quality i, i) else qc) (0, 0xff) = qc
      at h1 h2 h3 ⊢
  split
  · rename_i hz
    apply h2
    by_contra hne
    obtain ⟨a, b, _⟩ := h3 hne
    have := hz _ a
    omega
  · rename_i hz
    have hne : qc.1 ≠ 0 := by
      intro h0
      apply hz
      intro i hi
      have := h1 i hi
      omega
    obtain ⟨a, b, c⟩ := h3 hne
    refine ⟨a, ?_, ?_⟩
    · intro i hi; rw [b]; exact h1 i hi
    · intro i hi; rw [b]; exact c i hi

theorem seekRight_found (quality : Nat → Nat) (cur fuel c cc : Nat) (h : cc ≠ cur) :
    seekRight quality cur (fuel + 1) c cc = .ok cc := by
  simp [seekRight, h]

theorem seekLeft_found (quality : Nat → Nat) (cur fuel c cc : Nat) (h : cc ≠ cur) :
    seekLeft quality cur (fuel + 1) c cc = .ok cc := by
  simp [seekLeft, h]

theorem seekRight_spec (quality : Nat → Nat) (cur : Nat) :
    ∀ fuel c, cur ≤ c → c ≤ 12 → 12 - c < fuel →
      (∀ i, cur < i → i ≤ c → quality i = 0) →
      ∃ r, seekRight quality cur fuel c cur = .ok r ∧
        ((r = cur ∧ ∀ i, cur < i → i ≤ 12 → quality i = 0) ∨
         (cur < r ∧ r ≤ 12 ∧ quality r ≠ 0 ∧ ∀ i, cur < i → i < r → quality i = 0)) := by
  intro fuel
  induction fuel with
  | zero => intro c _ _ h; omega
  | succ f ih =>
    intro c hc1 hc2 hf hz
    by_cases hlt : c < 12
    · have hc1' : (c + 1) % 256 = c + 1 := by omega
      have hin : c + 1 < CHANNELS := by unfold CHANNELS; omega
      by_cases hq : quality (c + 1) = 0
      · have := ih (c + 1) (by omega) (by omega) (by omega) (by
          intro i h1 h2
          rcases Nat.lt_or_ge i (c + 1) with h | h
          · exact hz i h1 (by omega)
          · have : i = c + 1 := by omega
            subst this; exact hq)
        simpa [seekRight, hlt, hc1', hin, hq] using this
      · obtain ⟨f', rfl⟩ : ∃ f', f = f' + 1 := ⟨f - 1, by omega⟩
        refine ⟨c + 1, ?_, Or.inr ⟨by omega, by omega, hq, ?_⟩⟩
        · have := seekRight_found quality cur f' (c + 1) (c + 1) (by omega)
          simpa [seekRight, hlt, hc1', hin, hq] using this
        · intro i h1 h2; exact hz i h1 (by omega)
    · have : c = 12 := by omega
      subst this
      refine ⟨cur, by simp [seekRight], Or.inl ⟨rfl, hz⟩⟩

theorem seekLeft_spec (quality : Nat → Nat) (cur : Nat) (hcur : cur ≤ 12) :
    ∀ fuel c, c ≤ cur → c < fuel →
      (∀ i, c ≤ i → i < cur → quality i = 0) →
      ∃ r, seekLeft quality cur fuel c cur = .ok r ∧
        ((r = cur ∧ ∀ i, i < cur → quality i = 0) ∨
         (r < cur ∧ quality r ≠ 0 ∧ ∀ i, r < i → i < cur → quality i = 0)) := by
  intro fuel
  induction fuel with
  | zero => intro c _ h; omega
  | succ f ih =>
    intro c hc1 hf hz
    by_cases hlt : c > 0
    · have hin : c - 1 < CHANNELS := by unfold CHANNELS; omega
      by_cases hq : quality (c - 1) = 0
      · have := ih (c - 1) (by omega) (by omega) (by
          intro i h1 h2
          rcases Nat.lt_or_ge i c with h | h
          · have : i = c - 1 := by omega
            subst this; exact hq
          · exact hz i h h2)
        simpa [seekLeft, hlt, hin, hq] using this
      · obtain ⟨f', rfl⟩ : ∃ f', f = f' + 1 := ⟨f - 1, by omega⟩
        refine ⟨c - 1, ?_, Or.inr ⟨by omega, hq, ?_⟩⟩
        · have := seekLeft_found quality cur f' (c - 1) (c - 1) (by omega)
          simpa [seekLeft, hlt, hin, hq] using this
        · intro i h1 h2; exact hz i (by omega) h2
    · have : c = 0 := by omega
      subst this
      refine ⟨cur, by simp [seekLeft], Or.inl ⟨rfl, fun i hi => hz i (by omega) hi⟩⟩

/-- C8: from a current channel in 0..12, `seekNextChannel` returns without a
fault and moves the selection to the nearest index strictly beyond the current
one in the requested direction whose quality is non-zero; when there is none up
to the boundary (index 12 to the right, index 0 to the left) the selection is
unchanged.  There is no wraparound. -/
theorem seekNextChannel_spec (quality : Nat → Nat) (cur : Nat) (hcur : cur ≤ 12)
    (to_the_right : Bool) :
    ∃ r, seekNextChannel quality cur to_the_right = .ok r ∧
      if to_the_right = true then
        ((r = cur ∧ ∀ i, cur < i → i ≤ 12 → quality i = 0) ∨
         (cur < r ∧ r ≤ 12 ∧ quality r ≠ 0 ∧ ∀ i, cur < i → i < r → quality i = 0))
      else
        ((r = cur ∧ ∀ i, i < cur → quality i = 0) ∨
         (r < cur ∧ quality r ≠ 0 ∧ ∀ i, r < i → i < cur → quality i = 0)) := by
  cases to_the_right with
  | true =>
    simp only [if_true]
    by_cases h12 : cur = 12
    · subst h12
      exact ⟨12, by simp [seekNextChannel], Or.inl ⟨rfl, fun i h1 h2 => by omega⟩⟩
    · have := seekRight_spec quality cur 256 cur (le_refl _) hcur (by omega)
        (fun i h1 h2 => by omega)
      simpa [seekNextChannel, h12] using this
  | false =>
    simp only [Bool.false_eq_true, if_false]
    by_cases h0 : cur = 0
    · subst h0
      exact ⟨0, by simp [seekNextChannel], Or.inl ⟨rfl, fun i h1 => by omega⟩⟩
    · have := seekLeft_spec quality cur hcur 256 cur (le_refl _) (by omega)
        (fun i h1 h2 => by omega)
      simpa [seekNextChannel, h0] using this


theorem seekNextChannel_spec_witness :
    (5 : Nat) ≤ 12 ∧ ∃ r, seekNextChannel sampleQuality 5 true = .ok r ∧
      if true = true then
        ((r = 5 ∧ ∀ i, 5 < i → i ≤ 12 → sampleQuality i = 0) ∨
         (5 < r ∧ r ≤ 12 ∧ sampleQuality r ≠ 0 ∧ ∀ i, 5 < i → i < r → sampleQuality i = 0))
      else
        ((r = 5 ∧ ∀ i, i < 5 → sampleQuality i = 0) ∨
         (r < 5 ∧ sampleQuality r ≠ 0 ∧ ∀ i, r < i → i < 5 → sampleQuality i = 0)) :=
  ⟨by decide, seekNextChannel_spec sampleQuality 5 (by decide) true⟩

/-- On the sample array the selection moves from index 5 to 9 on the right and
to 3 on the left, and stays at 9 when asked to move right again. -/
theorem seekNextChannel_sample :
    seekNextChannel sampleQuality 5 true = .ok 9 ∧
    seekNextChannel sampleQuality 5 false = .ok 3 ∧
    seekNextChannel sampleQuality 9 true = .ok 9 ∧
    seekBestQualityChannel sampleQuality = 3 := by
  refine ⟨rfl, rfl, rfl, rfl⟩

/-! ## Ingestion of a scan result -/

theorem parseLoop_eq_parseAll (raw : List RawRecord) (hlen : raw.length ≤ 255) :
    ∀ fuel i g, i ≤ raw.length → raw.length - i < fuel →
      parseLoop raw fuel i g = parseAll g (raw.drop i) := by
  intro fuel
  induction fuel with
  | zero => intro i g _ h; omega
  | succ f ih =>
    intro i g hi hf
    by_cases hlt : i < raw.length
    · have h1 : ((i : Int) < (raw.length : Int)) := by exact_mod_cast hlt
      have h2 : raw[i]? = some raw[i] := List.getElem?_eq_getElem hlt
      have h3 : raw.drop i = raw[i] :: raw.drop (i + 1) := List.drop_eq_getElem_cons hlt
      have h4 : (i + 1) % 256 = i + 1 := by omega
      rw [h3]
      simp only [parseLoop, h1, if_true, h2, h4, parseAll]
      congr 1
      funext g1
      exact ih (i + 1) g1 (by omega) (by omega)
    · have h1 : ¬ ((i : Int) < (raw.length : Int)) := by exact_mod_cast hlt
      have h3 : raw.drop i = [] := List.drop_eq_nil_of_le (by omega)
      simp [parseLoop, h1, h3, parseAll]

/-- With 256 entries or more the 8-bit counter never reaches `n`:
the loop gives no result, whatever the budget. -/
theorem parseLoop_never_ok (raw : List RawRecord) (hlen : 256 ≤ raw.length) :
    ∀ fuel i g g1, i < 256 → parseLoop raw fuel i g ≠ .ok g1 := by
  intro fuel
  induction fuel with
  | zero => intro i g g1 _ h; simp [parseLoop] at h
  | succ f ih =>
    intro i g g1 hi h
    have h1 : ((i : Int) < (raw.length : Int)) := by exact_mod_cast (by omega : i < raw.length)
    have h2 : raw[i]? = some raw[i] := List.getElem?_eq_getElem (by omega)
    simp only [parseLoop, h1, if_true, h2] at h
    cases hr : parseRecord g raw[i] with
    | error e => rw [hr] at h; simp [Except.bind] at h
    | ok g2 =>
      rw [hr] at h
      exact ih ((i + 1) % 256) g2 g1 (Nat.mod_lt _ (by decide)) h

/-- What one round of the loop does to the aggregates when it gives a result. -/
theorem parseRecord_ok (g g1 : Globals) (rec : RawRecord) (h : parseRecord g rec = .ok g1) :
    channelIndex rec < CHANNELS ∧
    g1.devices = setAt g.devices (channelIndex rec) ((g.devices (channelIndex rec) + 1) % 256) ∧
    g1.quality = (if g.quality (channelIndex rec) < qualityOfRssi rec.rssi
      then setAt g.quality (channelIndex rec) (qualityOfRssi rec.rssi) else g.quality) ∧
    g1.best_quality = (if g.best_quality < qualityOfRssi rec.rssi
      then qualityOfRssi rec.rssi else g.best_quality) ∧
    g1.nb_of_devices = (g.nb_of_devices + 1) % 256 ∧
    g1.higher_nb_of_devices =
      (if g.higher_nb_of_devices < (g.devices (channelIndex rec) + 1) % 256
        then (g.devices (channelIndex rec) + 1) % 256 else g.higher_nb_of_devices) ∧
    g1.state = g.state ∧ g1.scanning = g.scanning ∧
    g1.current_channel = g.current_channel ∧ g1.last_ms = g.last_ms := by
  unfold parseRecord at h
  simp only [] at h
  change (if channelIndex rec < CHANNELS then _ else _) = _ at h
  by_cases hc : channelIndex rec < CHANNELS
  · rw [if_pos hc] at h
    refine ⟨hc, ?_⟩
    by_cases hd : g.devices (toU8 (rec.channel - 1)) ≤ MAX_AP_PER_CHANNEL
    · rw [if_pos hd] at h
      by_cases hk : cell (toU8 (rec.channel - 1)) (g.devices (toU8 (rec.channel - 1))) < AP_CELLS
      · rw [if_pos hk] at h
        simp only [Except.map] at h
        cases h
        simp [channelIndex, setAt]
      · rw [if_neg hk] at h
        simp [Except.map] at h
    · rw [if_neg hd] at h
      simp only [Except.map] at h
      cases h
      simp [channelIndex, setAt]
  · rw [if_neg hc] at h
    cases h

/-- What one round of the loop does to `ap` when it gives a result. -/
theorem parseRecord_ok_ap (g g1 : Globals) (rec : RawRecord) (h : parseRecord g rec = .ok g1) :
    g1.ap = (if g.devices (channelIndex rec) ≤ MAX_AP_PER_CHANNEL
      then setAt g.ap (cell (channelIndex rec) (g.devices (channelIndex rec))) (storedRecord rec)
      else g.ap) := by
  unfold parseRecord at h
  simp only [] at h
  change (if channelIndex rec < CHANNELS then _ else _) = _ at h
  by_cases hc : channelIndex rec < CHANNELS
  · rw [if_pos hc] at h
    by_cases hd : g.devices (toU8 (rec.channel - 1)) ≤ MAX_AP_PER_CHANNEL
    · rw [if_pos hd] at h
      by_cases hk : cell (toU8 (rec.channel - 1)) (g.devices (toU8 (rec.channel - 1))) < AP_CELLS
      · rw [if_pos hk] at h
        simp only [Except.map] at h
        cases h
        simp only [channelIndex, hd, if_true]
      · rw [if_neg hk] at h
        simp [Except.map] at h
    · rw [if_neg hd] at h
      simp only [Except.map] at h
      cases h
      simp only [channelIndex, hd, if_false]
  · rw [if_neg hc] at h
    cases h

/-- One round of the loop gives a result when the channel index is inside the
arrays and the cell it writes, if any, is inside `ap`. -/
theorem parseRecord_total (g : Globals) (rec : RawRecord) (hc : channelIndex rec < CHANNELS)
    (hk : cell (channelIndex rec) (g.devices (channelIndex rec)) < AP_CELLS) :
    ∃ g1, parseRecord g rec = .ok g1 := by
  unfold channelIndex at hc hk
  unfold parseRecord
  simp only []
  rw [if_pos hc]
  by_cases hd : g.devices (toU8 (rec.channel - 1)) ≤ MAX_AP_PER_CHANNEL
  · rw [if_pos hd, if_pos hk]
    exact ⟨_, rfl⟩
  · rw [if_neg hd]
    exact ⟨_, rfl⟩


theorem parseAll_spec : ∀ (raw : List RawRecord) (g : Globals),
    (∀ r, r ∈ raw → channelIndex r < CHANNELS) →
    (∀ c, c < CHANNELS → cell c (g.devices c + countOn raw c) ≤ AP_CELLS) →
    g.nb_of_devices + raw.length ≤ 255 →
    (∀ c, c < CHANNELS → g.devices c + countOn raw c ≤ 255) →
    ∃ g1, parseAll g raw = .ok g1 ∧
      (∀ c, g1.devices c = g.devices c + countOn raw c) ∧
      (∀ c, g1.quality c = max (g.quality c) (maxQualityOn raw c)) ∧
      g1.nb_of_devices = g.nb_of_devices + raw.length ∧
      g1.best_quality = max g.best_quality (maxQuality raw) ∧
      (HigherIsMax g → HigherIsMax g1) ∧
      g1.state = g.state ∧ g1.scanning = g.scanning ∧
      g1.current_channel = g.current_channel ∧ g1.last_ms = g.last_ms := by
  intro raw
  induction raw with
  | nil =>
    intro g _ _ _ _
    exact ⟨g, rfl, by simp [countOn], by simp [maxQualityOn], by simp, by simp [maxQuality],
      fun h => h, rfl, rfl, rfl, rfl⟩
  | cons rec rest ih =>
    intro g hch hcap hnb hdev
    have hc : channelIndex rec < CHANNELS := hch rec (List.mem_cons_self _ _)
    have hcap0 := hcap _ hc
    have hdev0 := hdev _ hc
    simp only [countOn, if_true] at hcap0 hdev0
    have hk : cell (channelIndex rec) (g.devices (channelIndex rec)) < AP_CELLS := by
      unfold cell at hcap0 ⊢; omega
    obtain ⟨g1, hg1⟩ := parseRecord_total g rec hc hk
    obtain ⟨_, hd, hq, hb, hn, hh, hs1, hs2, hs3, hs4⟩ := parseRecord_ok g g1 rec hg1
    have hwrap : (g.devices (channelIndex rec) + 1) % 256 = g.devices (channelIndex rec) + 1 := by
      omega
    have hnwrap : (g.nb_of_devices + 1) % 256 = g.nb_of_devices + 1 := by
      simp only [List.length_cons] at hnb; omega
    rw [hwrap] at hd hh
    rw [hnwrap] at hn
    have hdevs : ∀ c, g1.devices c + countOn rest c = g.devices c + countOn (rec :: rest) c := by
      intro c
      rw [hd]
      by_cases hcc : channelIndex rec = c
      · subst hcc; simp [setAt, countOn]; omega
      · have hcc' : ¬ c = channelIndex rec := fun h => hcc h.symm
        simp [setAt, countOn, hcc, hcc']
    obtain ⟨g2, hg2, hd2, hq2, hn2, hb2, hh2, ht1, ht2, ht3, ht4⟩ := ih g1
      (fun r hr => hch r (List.mem_cons_of_mem _ hr))
      (fun c hc' => by rw [hdevs c]; exact hcap c hc')
      (by rw [hn]; simp only [List.length_cons] at hnb; omega)
      (fun c hc' => by rw [hdevs c]; exact hdev c hc')
    refine ⟨g2, ?_, ?_, ?_, ?_, ?_, ?_, ?_, ?_, ?_, ?_⟩
    · simp [parseAll, hg1, Except.bind, hg2]
    · intro c; rw [hd2 c, hdevs c]
    · intro c
      rw [hq2 c, hq]
      by_cases hcc : channelIndex rec = c
      · subst hcc
        by_cases hlt : g.quality (channelIndex rec) < qualityOfRssi rec.rssi
        · simp only [hlt, if_true, setAt, maxQualityOn]
          omega
        · simp only [hlt, if_false, maxQualityOn, if_true]
          omega
      · have hcc' : ¬ c = channelIndex rec := fun h => hcc h.symm
        by_cases hlt : g.quality (channelIndex rec) < qualityOfRssi rec.rssi
        · simp [hlt, setAt, maxQualityOn, hcc, hcc']
        · simp [hlt, maxQualityOn, hcc]
    · rw [hn2, hn]; simp only [List.length_cons]; omega
    · rw [hb2, hb]
      by_cases hlt : g.best_quality < qualityOfRssi rec.rssi
      · simp only [hlt, if_true, maxQuality]; omega
      · simp only [hlt, if_false, maxQuality]; omega
    · intro hmax
      apply hh2
      obtain ⟨hle, c0, hc0, heq⟩ := hmax
      refine ⟨?_, ?_⟩
      · intro c hc'
        rw [hd, hh]
        have := hle c hc'
        have := hle _ hc
        by_cases hcc : c = channelIndex rec
        · subst hcc; simp only [setAt, if_true]; split <;> omega
        · simp only [setAt, hcc, if_false]; split <;> omega
      · by_cases hlt : g.higher_nb_of_devices < g.devices (channelIndex rec) + 1
        · refine ⟨channelIndex rec, hc, ?_⟩
          rw [hd, hh]; simp [setAt, hlt]
        · refine ⟨c0, hc0, ?_⟩
          have hne : c0 ≠ channelIndex rec := by
            intro h; subst h; omega
          rw [hd, hh]; simp [setAt, hlt, hne, heq]
    · rw [ht1, hs1]
    · rw [ht2, hs2]
    · rw [ht3, hs3]
    · rw [ht4, hs4]

/-- A monadic fold whose step keeps an invariant and gives a result wherever the
invariant holds gives a result that satisfies the invariant. -/
theorem foldlM_invariant {α β : Type} (f : β → α → Except Fault β) (P : β → Prop) :
    ∀ (l : List α), (∀ b a, a ∈ l → P b → ∃ b1, f b a = .ok b1 ∧ P b1) →
      ∀ b, P b → ∃ b1, l.foldlM f b = .ok b1 ∧ P b1 := by
  intro l
  induction l with
  | nil => intro _ b hb; exact ⟨b, rfl, hb⟩
  | cons a l ih =>
    intro hstep b hb
    obtain ⟨b1, h1, hP1⟩ := hstep b a (List.mem_cons_self _ _) hb
    obtain ⟨b2, h2, hP2⟩ := ih (fun b a ha => hstep b a (List.mem_cons_of_mem _ ha)) b1 hP1
    refine ⟨b2, ?_, hP2⟩
    rw [List.foldlM_cons, h1]
    exact h2

/-- A monadic fold whose step keeps an invariant whenever it gives a result
ends, when it gives a result, in a value that satisfies the invariant. -/
theorem foldlM_preserves {α β : Type} (f : β → α → Except Fault β) (P : β → Prop)
    (hstep : ∀ b a b1, P b → f b a = .ok b1 → P b1) :
    ∀ (l : List α) b b1, P b → l.foldlM f b = .ok b1 → P b1 := by
  intro l
  induction l with
  | nil =>
    intro b b1 hb h
    cases h
    exact hb
  | cons a l ih =>
    intro b b1 hb h
    rw [List.foldlM_cons] at h
    cases hf : f b a with
    | error e => rw [hf] at h; cases h
    | ok b2 =>
      rw [hf] at h
      exact ih b2 b1 (hstep b a b2 hb hf) h

theorem sortStep_total (c i j : Nat) (ap : Nat → WiFiAP)
    (hi : cell c i < AP_CELLS) (hj : cell c j < AP_CELLS) :
    ∃ ap1, sortStep c i ap j = .ok ap1 := by
  unfold sortStep
  rw [if_pos ⟨hi, hj⟩]
  split
  · exact ⟨_, rfl⟩
  · exact ⟨_, rfl⟩

theorem sortChannel_total (c n : Nat) (ap : Nat → WiFiAP)
    (h : n ≤ 1 ∨ cell c n ≤ AP_CELLS) : ∃ ap1, sortChannel c n ap = .ok ap1 := by
  unfold sortChannel
  by_cases hn : n > 1
  · rw [if_pos hn]
    have hcell : cell c n ≤ AP_CELLS := by
      rcases h with h | h
      · omega
      · exact h
    obtain ⟨ap1, h1, _⟩ := foldlM_invariant
      (fun ap i => (List.range' 1 (n - 1)).foldlM (sortStep c i) ap) (fun _ => True)
      (List.range (n - 1))
      (by
        intro b i hi _
        obtain ⟨b1, h1, _⟩ := foldlM_invariant (sortStep c i) (fun _ => True)
          (List.range' 1 (n - 1))
          (by
            intro b' j hj _
            rw [List.mem_range'_1] at hj
            rw [List.mem_range] at hi
            obtain ⟨b2, h2⟩ := sortStep_total c i j b'
              (by unfold cell at hcell ⊢; omega) (by unfold cell at hcell ⊢; omega)
            exact ⟨b2, h2, trivial⟩)
          b trivial
        exact ⟨b1, h1, trivial⟩)
      ap trivial
    exact ⟨ap1, h1⟩
  · rw [if_neg hn]
    exact ⟨_, rfl⟩

/-- `sortNetworks` writes `ap` only. -/
theorem sortNetworks_sameAggregates (g g1 : Globals) (h : sortNetworks g = .ok g1) :
    SameAggregates g g1 := by
  unfold sortNetworks at h
  refine foldlM_preserves _ (SameAggregates g) ?_ (List.range CHANNELS) g g1
    ⟨rfl, rfl, rfl, rfl, rfl, rfl, rfl, rfl, rfl⟩ h
  intro b c b1 hb hf
  cases hs : sortChannel c (b.devices c) b.ap with
  | error e => rw [hs] at hf; cases hf
  | ok ap1 =>
    rw [hs] at hf
    cases hf
    exact hb

/-- `sortNetworks` gives a result when, for every channel with two entries or
more, the cells `ap[c][0 .. devices[c] - 1]` are inside `ap`. -/
theorem sortNetworks_total (g : Globals)
    (h : ∀ c, c < CHANNELS → g.devices c ≤ 1 ∨ cell c (g.devices c) ≤ AP_CELLS) :
    ∃ g1, sortNetworks g = .ok g1 ∧ SameAggregates g g1 := by
  unfold sortNetworks
  refine foldlM_invariant _ (SameAggregates g) (List.range CHANNELS) ?_ g
    ⟨rfl, rfl, rfl, rfl, rfl, rfl, rfl, rfl, rfl⟩
  intro b c hc hb
  rw [List.mem_range] at hc
  have hdev : b.devices = g.devices := hb.2.2.2.2.2.2.1
  obtain ⟨ap1, h1⟩ := sortChannel_total c (b.devices c) b.ap (by rw [hdev]; exact h c hc)
  refine ⟨{ b with ap := ap1 }, ?_, hb⟩
  rw [h1]; rfl

theorem countOn_le_length (raw : List RawRecord) (c : Nat) : countOn raw c ≤ raw.length := by
  induction raw with
  | nil => simp [countOn]
  | cons r rest ih => simp only [countOn, List.length_cons]; split <;> omega

/-- Ingestion of a non-empty scan result of at most 255 entries whose channel
indices are inside the arrays and whose accesses to `ap` stay inside it: the
call returns, and the aggregates are functions of the scan result alone. -/
theorem parseNetworks_aggregates (fuel : Nat) (raw : List RawRecord) (g : Globals)
    (hne : raw ≠ []) (hlen : raw.length ≤ 255) (hfuel : raw.length < fuel)
    (hch : ∀ r, r ∈ raw → channelIndex r < CHANNELS)
    (hcap : ∀ c, c < CHANNELS → cell c (countOn raw c) ≤ AP_CELLS) :
    ∃ g1, parseNetworks fuel raw g = .ok g1 ∧
      (∀ c, c < CHANNELS → g1.devices c = countOn raw c) ∧
      (∀ c, c < CHANNELS → g1.quality c = maxQualityOn raw c) ∧
      g1.nb_of_devices = raw.length ∧
      g1.best_quality = maxQuality raw ∧
      HigherIsMax g1 ∧
      g1.state = advanceState g.state ∧ g1.scanning = false ∧
      g1.current_channel = g.current_channel ∧ g1.last_ms = g.last_ms := by
  have hlen0 : ¬ raw.length = 0 := by
    intro h; exact hne (List.length_eq_zero.mp h)
  have hloop := parseLoop_eq_parseAll raw hlen fuel 0
    (resetAggregates { g with state := advanceState g.state }) (Nat.zero_le _) (by omega)
  rw [List.drop_zero] at hloop
  have hreset : ∀ c, c < CHANNELS →
      (resetAggregates { g with state := advanceState g.state }).devices c = 0 := by
    intro c hc; simp [resetAggregates, hc]
  have hresetq : ∀ c, c < CHANNELS →
      (resetAggregates { g with state := advanceState g.state }).quality c = 0 := by
    intro c hc; simp [resetAggregates, hc]
  obtain ⟨g2, hg2, hd, hq, hn, hb, hh, hs1, hs2, hs3, hs4⟩ := parseAll_spec raw
    (resetAggregates { g with state := advanceState g.state }) hch
    (fun c hc => by rw [hreset c hc, Nat.zero_add]; exact hcap c hc)
    (by simp only [resetAggregates]; omega)
    (fun c hc => by rw [hreset c hc]; have := countOn_le_length raw c; omega)
  have hsortpre : ∀ c, c < CHANNELS →
      ({ g2 with scanning := false } : Globals).devices c ≤ 1 ∨
      cell c (({ g2 with scanning := false } : Globals).devices c) ≤ AP_CELLS := by
    intro c hc
    right
    show cell c (g2.devices c) ≤ AP_CELLS
    rw [hd c, hreset c hc, Nat.zero_add]
    exact hcap c hc
  obtain ⟨g3, hg3, hsame⟩ := sortNetworks_total { g2 with scanning := false } hsortpre
  obtain ⟨e1, e2, e3, e4, e5, e6, e7, e8, e9⟩ := hsame
  refine ⟨g3, ?_, ?_, ?_, ?_, ?_, ?_, ?_, ?_, ?_, ?_⟩
  · unfold parseNetworks
    rw [if_neg hlen0]
    simp only []
    rw [hloop, hg2]
    exact hg3
  · intro c hc; rw [e7]; show g2.devices c = _; rw [hd c, hreset c hc, Nat.zero_add]
  · intro c hc; rw [e6]; show g2.quality c = _; rw [hq c, hresetq c hc]; simp
  · rw [e4]; show g2.nb_of_devices = _; rw [hn]; simp [resetAggregates]
  · rw [e3]; show g2.best_quality = _; rw [hb]; simp [resetAggregates]
  · have h0 : HigherIsMax (resetAggregates { g with state := advanceState g.state }) :=
      ⟨fun c hc => by rw [hreset c hc]; exact Nat.zero_le _,
        0, by decide, by rw [hreset 0 (by decide)]; rfl⟩
    obtain ⟨ha, c0, hc0, hb0⟩ := hh h0
    refine ⟨?_, c0, hc0, ?_⟩
    · intro c hc; rw [e7, e5]; exact ha c hc
    · rw [e7, e5]; exact hb0
  · rw [e1]; show g2.state = _; rw [hs1]; rfl
  · rw [e2]
  · rw [e8]; show g2.current_channel = _; rw [hs3]; rfl
  · rw [e9]; show g2.last_ms = _; rw [hs4]; rfl

/-- The sixth entry of `sixOnChannelOne` arrives when `devices[0]` is 5 and is
not written to `ap` (no cell holds a record of quality 90); its quality 90 is
the quality of the channel. -/
theorem parseNetworks_quality_of_unstored :
    ∃ g1, parseNetworks 256 sixOnChannelOne boot = .ok g1 ∧
      g1.quality 0 = 90 ∧ g1.devices 0 = 6 ∧ g1.best_quality = 90 ∧
      (List.range AP_CELLS).all (fun k => decide ((g1.ap k).quality ≠ 90)) = true :=
  ⟨_, rfl, rfl, rfl, rfl, rfl⟩

/-- The scenario of the specification, evaluated. -/
theorem parseNetworks_scenario :
    ∃ g1, parseNetworks 256 scenario boot = .ok g1 ∧
      g1.devices 5 = 2 ∧ g1.devices 0 = 1 ∧ g1.quality 5 = 100 ∧ g1.best_quality = 100 ∧
      g1.nb_of_devices = 3 ∧ g1.higher_nb_of_devices = 2 ∧
      (g1.ap (cell 5 0)).ssid.take 4 = [72, 111, 109, 101] ∧
      (g1.ap (cell 5 1)).ssid.take 5 = [71, 117, 101, 115, 116] ∧
      g1.state = State.FIRST_SCAN ∧ g1.scanning = false :=
  ⟨_, rfl, rfl, rfl, rfl, rfl, rfl, rfl, rfl, rfl, rfl, rfl⟩

/-- With 256 entries `parseNetworks` gives no result, whatever the budget. -/
theorem parseNetworks_256_no_result (fuel : Nat) (g g1 : Globals) :
    parseNetworks fuel (List.replicate 256 (openNetwork 1 65 (-40))) g ≠ .ok g1 := by
  intro h
  unfold parseNetworks at h
  rw [if_neg (by rw [List.length_replicate]; decide)] at h
  simp only [] at h
  cases hl : parseLoop (List.replicate 256 (openNetwork 1 65 (-40))) fuel 0
      (resetAggregates { g with state := advanceState g.state }) with
  | error e => rw [hl] at h; cases h
  | ok g2 =>
    exact parseLoop_never_ok _ (by rw [List.length_replicate]) fuel 0 _ g2 (by decide) hl

/-! ## Defects of the storage and of the renderer -/

/-- C1 fails on four networks on one channel: `sortNetworks` leaves bucket 0 in
the order -40, -60, -50, -70, where slot 1 is weaker than slot 2. -/
theorem sortNetworks_four_unsorted :
    ∃ g1, parseNetworks 256 fourOnChannelOne boot = .ok g1 ∧ g1.devices 0 = 4 ∧
      bucketRssi g1 0 = [-40, -60, -50, -70] ∧
      (g1.ap (cell 0 1)).rssi < (g1.ap (cell 0 2)).rssi :=
  ⟨_, rfl, rfl, rfl, by decide⟩

/-- Whenever an entry arrives on a channel index below 12 whose count is
already `MAX_AP_PER_CHANNEL`, the loop body writes it to slot index
`MAX_AP_PER_CHANNEL` of that channel, which is the first cell of the next
channel. -/
theorem parseRecord_writes_slot_four (g : Globals) (rec : RawRecord)
    (hc : channelIndex rec < 12) (hd : g.devices (channelIndex rec) = MAX_AP_PER_CHANNEL) :
    ∃ g1, parseRecord g rec = .ok g1 ∧
      g1.ap (cell (channelIndex rec) MAX_AP_PER_CHANNEL) = storedRecord rec ∧
      cell (channelIndex rec) MAX_AP_PER_CHANNEL = cell (channelIndex rec + 1) 0 := by
  obtain ⟨g1, hg1⟩ := parseRecord_total g rec (by unfold CHANNELS; omega)
    (by rw [hd]; unfold cell AP_CELLS CHANNELS MAX_AP_PER_CHANNEL; omega)
  refine ⟨g1, hg1, ?_, ?_⟩
  · rw [parseRecord_ok_ap g g1 rec hg1, if_pos (by omega), hd]
    simp [setAt]
  · unfold cell MAX_AP_PER_CHANNEL; omega

/-- C2 fails on five networks on one channel: the loop of `parseNetworks`
writes the fifth entry to `ap[0][4]`, slot index 4 = K, which is the cell of
`ap[1][0]`; on channel 13 the same write is past the end of `ap`. -/
theorem parseLoop_writes_slot_four :
    (∃ g1, parseLoop fiveOnChannelOne 256 0 (resetAggregates boot) = .ok g1 ∧
      g1.devices 0 = 5 ∧
      g1.ap (cell 0 4) = storedRecord (openNetwork 1 69 (-80)) ∧
      boot.ap (cell 0 4) ≠ storedRecord (openNetwork 1 69 (-80)) ∧
      cell 0 4 = cell 1 0) ∧
    parseLoop fiveOnChannelThirteen 256 0 (resetAggregates boot) = .error Fault.outOfBounds :=
  ⟨⟨_, rfl, rfl, rfl, by decide, rfl⟩, rfl⟩


/-- A channel without devices is drawn as the marker on the bottom row. -/
theorem drawBar_empty (P : Platform) (g : Globals) (i : Nat) (h : g.devices i = 0) :
    drawBar P g i = .ok [DrawCmd.drawFastHLine (toU8 ((i : Int) * ((BAR_WIDTH : Int) + BAR_GAP)))
      ((GRAPH_HEIGHT P : Int) - 1) BAR_WIDTH (Color.rgb565 TFT_RED)] := by
  unfold drawBar
  simp only [h, if_true]

/-- When `best_quality` is 0, a channel with devices whose bar is at least 2
pixels high makes the bar loop divide by zero. -/
theorem drawBar_divisionByZero (P : Platform) (g : Globals) (i : Nat)
    (hq : g.best_quality = 0) (hn : g.devices i ≠ 0)
    (hh : 2 ≤ toU8 (P.map (g.devices i) 0 g.higher_nb_of_devices 0 (BAR_HEIGHT P))) :
    drawBar P g i = .error Fault.divisionByZero := by
  unfold drawBar
  simp only [hn, if_false]
  obtain ⟨k, hk⟩ : ∃ k, toU8 (P.map (g.devices i) 0 g.higher_nb_of_devices 0 (BAR_HEIGHT P)) - 1
      = k + 1 := ⟨_, (Nat.succ_pred_eq_of_pos (by omega)).symm⟩
  rw [hk, List.range_succ_eq_map, List.mapM_cons]
  simp only [rowHue, hq, if_true]
  rfl

/-- The counts are all 0 when their maximum is 0. -/
theorem devices_zero_of_higher_zero (g : Globals) (h : HigherIsMax g)
    (h0 : g.higher_nb_of_devices = 0) : ∀ c, c < CHANNELS → g.devices c = 0 := by
  intro c hc
  have := h.1 c hc
  omega

/-- C3 fails on one network at -100 dBm: ingest leaves `best_quality = 0` with
one device on channel index 0, and the bar loop, instead of drawing the
empty-channel marker, takes the bar branch and divides by `best_quality`. -/
theorem drawGraph_divides_by_zero :
    ∃ g1, parseNetworks 256 weakOnChannelOne boot = .ok g1 ∧
      g1.best_quality = 0 ∧ g1.devices 0 = 1 ∧ g1.higher_nb_of_devices = 1 ∧
      drawBar samplePlatform g1 0 = .error Fault.divisionByZero ∧
      drawGraph samplePlatform g1 = .error Fault.divisionByZero :=
  ⟨_, rfl, rfl, rfl, rfl, rfl, rfl⟩

/-! ## Scan requests -/

/-- C11: `scanNetworks` called when `millis()` returns `now` sets `scanning` and
calls `WiFi.scanNetworksAsync` exactly when `now - last_ms`, in unsigned 32-bit
arithmetic, is at least 3000 and `scanning` is false; in every other case no
request is made and `scanning` keeps its value. -/
theorem scanNetworks_starts_iff (now : Nat) (g : Globals) :
    if SCAN_PERIOD_MS ≤ toU32 ((toU32 now : Int) - (g.last_ms : Int)) ∧ g.scanning = false then
      (scanNetworks now g).2 = true ∧ (scanNetworks now g).1.scanning = true
    else
      (scanNetworks now g).2 = false ∧ (scanNetworks now g).1.scanning = g.scanning := by
  unfold scanNetworks
  simp only []
  by_cases h1 : toU32 ((toU32 now : Int) - (g.last_ms : Int)) < SCAN_PERIOD_MS
  · have hn : ¬ (SCAN_PERIOD_MS ≤ toU32 ((toU32 now : Int) - (g.last_ms : Int)) ∧
        g.scanning = false) := fun h => absurd h.1 (Nat.not_le.mpr h1)
    rw [if_neg hn, if_pos h1]
    exact ⟨rfl, rfl⟩
  · rw [if_neg h1]
    cases hs : g.scanning with
    | true =>
      have hn : ¬ (SCAN_PERIOD_MS ≤ toU32 ((toU32 now : Int) - (g.last_ms : Int)) ∧
          true = false) := fun h => absurd h.2 (by decide)
      rw [if_neg hn]
      simp [hs]
    | false =>
      rw [if_pos ⟨Nat.not_lt.mp h1, rfl⟩]
      simp [hs]

/-- The rate limit at work on the boot globals: nothing at 2999 ms, a request
at 3000 ms, nothing while that scan is in flight, and the 32-bit difference
wraps (the clock at 1000 ms after a last attempt at 4294965000 ms is 3296 ms
later). -/
theorem scanNetworks_sample :
    (scanNetworks 2999 boot).2 = false ∧ (scanNetworks 3000 boot).2 = true ∧
    (scanNetworks 9000 (scanNetworks 3000 boot).1).2 = false ∧
    (scanNetworks 9000 (scanNetworks 3000 boot).1).1.last_ms = 9000 ∧
    (scanNetworks 1000 { boot with last_ms := 4294965000 }).2 = true := by
  refine ⟨rfl, rfl, rfl, rfl, rfl⟩

/-! ## When ingestion returns -/

/-- The loop of `parseNetworks` returns only when the budget exceeds the number
of rounds left. -/
theorem parseLoop_ok_fuel (raw : List RawRecord) (hlen : raw.length ≤ 255) :
    ∀ fuel i g g1, i ≤ raw.length → parseLoop raw fuel i g = .ok g1 → raw.length - i < fuel := by
  intro fuel
  induction fuel with
  | zero => intro i g g1 _ h; simp [parseLoop] at h
  | succ f ih =>
    intro i g g1 hi h
    by_cases hlt : i < raw.length
    · have h1 : ((i : Int) < (raw.length : Int)) := by exact_mod_cast hlt
      have h2 : raw[i]? = some raw[i] := List.getElem?_eq_getElem hlt
      have h4 : (i + 1) % 256 = i + 1 := by omega
      simp only [parseLoop, h1, if_true, h2, h4] at h
      cases hr : parseRecord g raw[i] with
      | error e => rw [hr] at h; cases h
      | ok g2 =>
        rw [hr] at h
        have := ih (i + 1) g2 g1 (by omega) h
        omega
    · omega

/-- The rounds of the loop give a result only for channel indices inside the
arrays. -/
theorem parseAll_ok_channels : ∀ (raw : List RawRecord) (g g1 : Globals),
    parseAll g raw = .ok g1 → ∀ r, r ∈ raw → channelIndex r < CHANNELS := by
  intro raw
  induction raw with
  | nil => intro g g1 _ r hr; cases hr
  | cons a rest ih =>
    intro g g1 h r hr
    simp only [parseAll] at h
    cases ha : parseRecord g a with
    | error e => rw [ha] at h; cases h
    | ok g2 =>
      rw [ha] at h
      rcases List.mem_cons.mp hr with hra | hra
      · subst hra; exact (parseRecord_ok g g2 r ha).1
      · exact ih g2 g1 h r hra

/-- A fold that gives a result has taken every step of it with a result. -/
theorem foldlM_ok_steps {α β : Type} (f : β → α → Except Fault β) (P : β → Prop)
    (hP : ∀ b a b1, P b → f b a = .ok b1 → P b1) :
    ∀ (l : List α) b b1, P b → l.foldlM f b = .ok b1 →
      ∀ a, a ∈ l → ∃ b2 b3, P b2 ∧ f b2 a = .ok b3 := by
  intro l
  induction l with
  | nil => intro b b1 _ _ a ha; cases ha
  | cons x l ih =>
    intro b b1 hb h a ha
    rw [List.foldlM_cons] at h
    cases hf : f b x with
    | error e => rw [hf] at h; cases h
    | ok b2 =>
      rw [hf] at h
      rcases List.mem_cons.mp ha with hax | hal
      · subst hax; exact ⟨b, b2, hb, hf⟩
      · exact ih b2 b1 (hP b x b2 hb hf) h a hal

theorem sortStep_ok_bound (c i j : Nat) (ap ap1 : Nat → WiFiAP)
    (h : sortStep c i ap j = .ok ap1) : cell c i < AP_CELLS ∧ cell c j < AP_CELLS := by
  unfold sortStep at h
  by_cases hb : cell c i < AP_CELLS ∧ cell c j < AP_CELLS
  · exact hb
  · rw [if_neg hb] at h; cases h

/-- The sort of one channel gives a result only when the cells it compares are
inside `ap`. -/
theorem sortChannel_ok_bound (c n : Nat) (ap ap1 : Nat → WiFiAP)
    (h : sortChannel c n ap = .ok ap1) : n ≤ 1 ∨ cell c n ≤ AP_CELLS := by
  by_cases hn : n > 1
  · right
    unfold sortChannel at h
    rw [if_pos hn] at h
    obtain ⟨b2, b3, _, h2⟩ := foldlM_ok_steps
      (fun ap i => (List.range' 1 (n - 1)).foldlM (sortStep c i) ap) (fun _ => True)
      (fun _ _ _ _ _ => trivial) (List.range (n - 1)) ap ap1 trivial h 0
      (List.mem_range.mpr (by omega))
    obtain ⟨b4, b5, _, h3⟩ := foldlM_ok_steps (sortStep c 0) (fun _ => True)
      (fun _ _ _ _ _ => trivial) (List.range' 1 (n - 1)) b2 b3 trivial h2 (n - 1)
      (by rw [List.mem_range'_1]; omega)
    have := (sortStep_ok_bound c 0 (n - 1) b4 b5 h3).2
    unfold cell at this ⊢
    omega
  · left; omega

/-- `sortNetworks` gives a result only when, for every channel with two entries
or more, the cells `ap[c][0 .. devices[c] - 1]` are inside `ap`. -/
theorem sortNetworks_ok_bound (g g1 : Globals) (h : sortNetworks g = .ok g1) :
    ∀ c, c < CHANNELS → g.devices c ≤ 1 ∨ cell c (g.devices c) ≤ AP_CELLS := by
  intro c hc
  unfold sortNetworks at h
  obtain ⟨b2, b3, hP, h2⟩ := foldlM_ok_steps
    (fun g c => (sortChannel c (g.devices c) g.ap).map (fun ap => { g with ap := ap }))
    (fun b => b.devices = g.devices)
    (by
      intro b a b1 hb hf
      dsimp only at hf
      cases hs : sortChannel a (b.devices a) b.ap with
      | error e => rw [hs] at hf; cases hf
      | ok ap1 => rw [hs] at hf; cases hf; exact hb)
    (List.range CHANNELS) g g1 rfl h c (List.mem_range.mpr hc)
  cases hs : sortChannel c (b2.devices c) b2.ap with
  | error e => rw [hs] at h2; cases h2
  | ok ap1 =>
    have := sortChannel_ok_bound c (b2.devices c) b2.ap ap1 hs
    rw [hP] at this
    exact this

/-- The counts after the rounds of the loop, when they give a result. -/
theorem parseAll_ok_devices : ∀ (raw : List RawRecord) (g g1 : Globals),
    parseAll g raw = .ok g1 →
    (∀ c, c < CHANNELS → g.devices c + countOn raw c ≤ 255) →
    ∀ c, g1.devices c = g.devices c + countOn raw c := by
  intro raw
  induction raw with
  | nil => intro g g1 h _ c; cases h; simp [countOn]
  | cons a rest ih =>
    intro g g1 h hdev c
    simp only [parseAll] at h
    cases ha : parseRecord g a with
    | error e => rw [ha] at h; cases h
    | ok g2 =>
      rw [ha] at h
      obtain ⟨hc, hd, _⟩ := parseRecord_ok g g2 a ha
      have hdev0 := hdev _ hc
      simp only [countOn, if_true] at hdev0
      have hwrap : (g.devices (channelIndex a) + 1) % 256 = g.devices (channelIndex a) + 1 := by
        omega
      rw [hwrap] at hd
      have hdevs : ∀ c, g2.devices c + countOn rest c = g.devices c + countOn (a :: rest) c := by
        intro c
        rw [hd]
        by_cases hcc : channelIndex a = c
        · subst hcc; simp [setAt, countOn]; omega
        · have hcc' : ¬ c = channelIndex a := fun h => hcc h.symm
          simp [setAt, countOn, hcc, hcc']
      rw [ih g2 g1 h (fun c hc' => by rw [hdevs c]; exact hdev c hc') c, hdevs c]

/-- `parseNetworks` returns from a non-empty scan result only when the result
has at most 255 entries, fewer than the budget, all with channel indices inside
the arrays, and every access to `ap` stays inside it. -/
theorem parseNetworks_ok_domain (fuel : Nat) (raw : List RawRecord) (g g1 : Globals)
    (hne : raw ≠ []) (h : parseNetworks fuel raw g = .ok g1) :
    raw.length ≤ 255 ∧ raw.length < fuel ∧
    (∀ r, r ∈ raw → channelIndex r < CHANNELS) ∧
    (∀ c, c < CHANNELS → cell c (countOn raw c) ≤ AP_CELLS) := by
  have hlen0 : ¬ raw.length = 0 := fun h0 => hne (List.length_eq_zero.mp h0)
  unfold parseNetworks at h
  rw [if_neg hlen0] at h
  simp only [] at h
  cases hl : parseLoop raw fuel 0 (resetAggregates { g with state := advanceState g.state }) with
  | error e => rw [hl] at h; cases h
  | ok g2 =>
    rw [hl] at h
    have hlen : raw.length ≤ 255 := by
      by_contra hgt
      exact parseLoop_never_ok raw (by omega) fuel 0 _ g2 (by decide) hl
    have hfuel := parseLoop_ok_fuel raw hlen fuel 0 _ g2 (Nat.zero_le _) hl
    have hall := parseLoop_eq_parseAll raw hlen fuel 0
      (resetAggregates { g with state := advanceState g.state }) (Nat.zero_le _) hfuel
    rw [List.drop_zero, hl] at hall
    have hch := parseAll_ok_channels raw _ g2 hall.symm
    have hreset : ∀ c, c < CHANNELS →
        (resetAggregates { g with state := advanceState g.state }).devices c = 0 := by
      intro c hc; simp [resetAggregates, hc]
    have hdev := parseAll_ok_devices raw _ g2 hall.symm
      (fun c hc => by rw [hreset c hc]; have := countOn_le_length raw c; omega)
    refine ⟨hlen, by omega, hch, ?_⟩
    intro c hc
    have hb := sortNetworks_ok_bound { g2 with scanning := false } g1 h c hc
    have hd : ({ g2 with scanning := false } : Globals).devices c = countOn raw c := by
      show g2.devices c = _
      rw [hdev c, hreset c hc, Nat.zero_add]
    rw [hd] at hb
    rcases hb with hb | hb
    · unfold cell AP_CELLS CHANNELS MAX_AP_PER_CHANNEL at *
      have : c * 4 ≤ 48 := by omega
      omega
    · exact hb

/-- `scanNetworks` writes `last_ms` and `scanning` only. -/
theorem scanNetworks_frame (now : Nat) (g : Globals) :
    (scanNetworks now g).1.state = g.state ∧ (scanNetworks now g).1.ap = g.ap ∧
    (scanNetworks now g).1.best_quality = g.best_quality ∧
    (scanNetworks now g).1.nb_of_devices = g.nb_of_devices ∧
    (scanNetworks now g).1.higher_nb_of_devices = g.higher_nb_of_devices ∧
    (scanNetworks now g).1.quality = g.quality ∧ (scanNetworks now g).1.devices = g.devices ∧
    (scanNetworks now g).1.current_channel = g.current_channel := by
  unfold scanNetworks
  simp only []
  split
  · exact ⟨rfl, rfl, rfl, rfl, rfl, rfl, rfl, rfl⟩
  · split <;> exact ⟨rfl, rfl, rfl, rfl, rfl, rfl, rfl, rfl⟩

/-- `update` writes `current_channel` only. -/
theorem update_frame (t : Tick) (g g1 : Globals) (h : update t g = .ok g1) :
    g1.state = g.state ∧ g1.ap = g.ap ∧ g1.best_quality = g.best_quality ∧
    g1.nb_of_devices = g.nb_of_devices ∧
    g1.higher_nb_of_devices = g.higher_nb_of_devices ∧
    g1.quality = g.quality ∧ g1.devices = g.devices ∧
    g1.scanning = g.scanning ∧ g1.last_ms = g.last_ms := by
  unfold update at h
  simp only [] at h
  have key : ∀ (m : Except Fault Globals),
      (∀ g2, m = .ok g2 → g2.state = g.state ∧ g2.ap = g.ap ∧
        g2.best_quality = g.best_quality ∧ g2.nb_of_devices = g.nb_of_devices ∧
        g2.higher_nb_of_devices = g.higher_nb_of_devices ∧
        g2.quality = g.quality ∧ g2.devices = g.devices ∧
        g2.scanning = g.scanning ∧ g2.last_ms = g.last_ms) →
      (m.bind fun g1 => (drawGUI g1).map fun _ => g1) = .ok g1 →
      g1.state = g.state ∧ g1.ap = g.ap ∧ g1.best_quality = g.best_quality ∧
        g1.nb_of_devices = g.nb_of_devices ∧
        g1.higher_nb_of_devices = g.higher_nb_of_devices ∧
        g1.quality = g.quality ∧ g1.devices = g.devices ∧
        g1.scanning = g.scanning ∧ g1.last_ms = g.last_ms := by
    intro m hm hb
    cases hmm : m with
    | error e => rw [hmm] at hb; cases hb
    | ok g2 =>
      rw [hmm] at hb
      simp only [Except.bind] at hb
      cases hd : drawGUI g2 with
      | error e => rw [hd] at hb; cases hb
      | ok u =>
        rw [hd] at hb
        cases hb
        exact hm g2 hmm
  refine key _ ?_ h
  intro g2 hg2
  by_cases hl : t.left = true
  · rw [if_pos hl] at hg2
    cases hs : seekNextChannel g.quality g.current_channel false with
    | error e => rw [hs] at hg2; cases hg2
    | ok cc => rw [hs] at hg2; cases hg2; exact ⟨rfl, rfl, rfl, rfl, rfl, rfl, rfl, rfl, rfl⟩
  · rw [if_neg hl] at hg2
    by_cases hr : t.right = true
    · rw [if_pos hr] at hg2
      cases hs : seekNextChannel g.quality g.current_channel true with
      | error e => rw [hs] at hg2; cases hg2
      | ok cc => rw [hs] at hg2; cases hg2; exact ⟨rfl, rfl, rfl, rfl, rfl, rfl, rfl, rfl, rfl⟩
    · rw [if_neg hr] at hg2
      cases hg2
      exact ⟨rfl, rfl, rfl, rfl, rfl, rfl, rfl, rfl, rfl⟩

/-- A pass of `loop()` leaves the aggregates and `ap` as they are, and moves the
phase from FIRST_SCAN to SCAN or not at all. -/
theorem loop_frame (t : Tick) (g g1 : Globals) (h : loop t g = .ok g1) :
    g1.ap = g.ap ∧ g1.best_quality = g.best_quality ∧
    g1.nb_of_devices = g.nb_of_devices ∧
    g1.higher_nb_of_devices = g.higher_nb_of_devices ∧
    g1.quality = g.quality ∧ g1.devices = g.devices ∧
    g1.state = (if g.state = State.FIRST_SCAN then State.SCAN else g.state) := by
  obtain ⟨s1, s2, s3, s4, s5, s6, s7, s8⟩ := scanNetworks_frame t.now g
  unfold loop at h
  cases hs : g.state with
  | INIT =>
    rw [hs] at h
    simp only [] at h
    by_cases hf : t.fading = true
    · rw [if_pos hf] at h; cases h
      exact ⟨rfl, rfl, rfl, rfl, rfl, rfl, by simp [hs]⟩
    · rw [if_neg hf] at h; cases h
      exact ⟨s2, s3, s4, s5, s6, s7, by rw [s1, hs]; simp⟩
  | FIRST_SCAN =>
    rw [hs] at h
    simp only [] at h
    cases h
    exact ⟨rfl, rfl, rfl, rfl, rfl, rfl, by simp⟩
  | SCAN =>
    rw [hs] at h
    simp only [] at h
    obtain ⟨u1, u2, u3, u4, u5, u6, u7, _, _⟩ := update_frame t _ g1 h
    exact ⟨by rw [u2, s2], by rw [u3, s3], by rw [u4, s4], by rw [u5, s5], by rw [u6, s6],
      by rw [u7, s7], by rw [u1, s1, hs]; simp⟩

/-- The phase after the callback: advanced by one step of the `switch`, or
unchanged when the scan result is empty. -/
theorem parseNetworks_state (fuel : Nat) (raw : List RawRecord) (g g1 : Globals)
    (h : parseNetworks fuel raw g = .ok g1) :
    g1.state = (if raw = [] then g.state else advanceState g.state) := by
  by_cases hne : raw = []
  · subst hne
    cases h
    simp
  · obtain ⟨hlen, hfuel, hch, hcap⟩ := parseNetworks_ok_domain fuel raw g g1 hne h
    obtain ⟨a, ha, _, _, _, _, _, hst, _⟩ :=
      parseNetworks_aggregates fuel raw g hne hlen hfuel hch hcap
    rw [h] at ha
    cases ha
    rw [hst, if_neg hne]

/-- The callback keeps `higher_nb_of_devices` the maximum of the counts. -/
theorem parseNetworks_higherIsMax (fuel : Nat) (raw : List RawRecord) (g g1 : Globals)
    (hg : HigherIsMax g) (h : parseNetworks fuel raw g = .ok g1) : HigherIsMax g1 := by
  by_cases hne : raw = []
  · subst hne
    cases h
    exact hg
  · obtain ⟨hlen, hfuel, hch, hcap⟩ := parseNetworks_ok_domain fuel raw g g1 hne h
    obtain ⟨a, ha, _, _, _, _, hh, _⟩ :=
      parseNetworks_aggregates fuel raw g hne hlen hfuel hch hcap
    rw [h] at ha
    cases ha
    exact hh

/-- What an event that gives a result does to the phase and to the relation
between `higher_nb_of_devices` and `devices`. -/
theorem step_spec (P : Platform) (g g1 : Globals) (e : Event) (h : step P g e = .ok g1) :
    g.state.rank ≤ g1.state.rank ∧ (autoSelects g e = true → g1.state = State.SCAN) ∧
    (HigherIsMax g → HigherIsMax g1) := by
  cases e with
  | tick t =>
    obtain ⟨_, _, _, l4, _, l6, l7⟩ := loop_frame t g g1 h
    refine ⟨?_, ?_, ?_⟩
    · rw [l7]
      cases hs : g.state <;> simp [State.rank]
    · intro ha
      simp only [autoSelects, decide_eq_true_eq] at ha
      rw [l7, if_pos ha]
    · intro hm
      unfold HigherIsMax at hm ⊢
      rw [l4, l6]
      exact hm
  | scanDone raw =>
    simp only [step] at h
    cases hp : parseNetworks 256 raw g with
    | error e => rw [hp] at h; cases h
    | ok g2 =>
      rw [hp] at h
      have hg : g1 = g2 := by
        simp only [Except.bind] at h
        by_cases h0 : raw.length = 0
        · rw [if_pos h0] at h; cases h; rfl
        · rw [if_neg h0] at h
          cases hd : drawGraph P g2 with
          | error e => rw [hd] at h; cases h
          | ok u => rw [hd] at h; cases h; rfl
      subst hg
      refine ⟨?_, ?_, fun hm => parseNetworks_higherIsMax 256 raw g g1 hm hp⟩
      · rw [parseNetworks_state 256 raw g g1 hp]
        split
        · exact le_refl _
        · cases hs : g.state <;> simp [State.rank, advanceState]
      · intro ha; simp [autoSelects] at ha

/-- The sample start of the program, evaluated. -/
theorem run_sampleEvents :
    ∃ g, run samplePlatform boot sampleEvents = .ok g ∧ g.state = State.SCAN ∧
      g.current_channel = 5 ∧ g.higher_nb_of_devices = 2 ∧ g.scanning = false ∧
      g.last_ms = 3000 ∧ phases samplePlatform boot sampleEvents =
        [State.INIT, State.INIT, State.FIRST_SCAN, State.SCAN] ∧
      autoSelections samplePlatform boot sampleEvents = 1 :=
  ⟨_, rfl, rfl, rfl, rfl, rfl, rfl, rfl, rfl⟩

/-! ## Lifecycle -/

theorem phases_rank (P : Platform) : ∀ (evs : List Event) (g : Globals) (s : State),
    s ∈ phases P g evs → g.state.rank ≤ s.rank := by
  intro evs
  induction evs with
  | nil =>
    intro g s hs
    simp only [phases, List.mem_singleton] at hs
    rw [hs]
  | cons e rest ih =>
    intro g s hs
    simp only [phases, List.mem_cons] at hs
    rcases hs with hs | hs
    · rw [hs]
    · cases hst : step P g e with
      | error x => rw [hst] at hs; cases hs
      | ok g1 =>
        rw [hst] at hs
        exact le_trans (step_spec P g g1 e hst).1 (ih g1 s hs)

theorem phases_pairwise (P : Platform) : ∀ (evs : List Event) (g : Globals),
    (phases P g evs).Pairwise (fun a b => a.rank ≤ b.rank) := by
  intro evs
  induction evs with
  | nil => intro g; simp [phases]
  | cons e rest ih =>
    intro g
    simp only [phases]
    rw [List.pairwise_cons]
    cases hst : step P g e with
    | error x => exact ⟨fun s hs => (by cases hs), List.Pairwise.nil⟩
    | ok g1 =>
      refine ⟨?_, ih g1⟩
      intro s hs
      exact le_trans (step_spec P g g1 e hst).1 (phases_rank P rest g1 s hs)

theorem autoSelections_scan (P : Platform) : ∀ (evs : List Event) (g : Globals),
    g.state = State.SCAN → autoSelections P g evs = 0 := by
  intro evs
  induction evs with
  | nil => intro g _; rfl
  | cons e rest ih =>
    intro g hg
    have hno : autoSelects g e = false := by
      cases e with
      | tick t => simp [autoSelects, hg]
      | scanDone raw => rfl
    simp only [autoSelections, hno]
    cases hst : step P g e with
    | error x => rfl
    | ok g1 =>
      have h1 := (step_spec P g g1 e hst).1
      rw [hg] at h1
      have : g1.state = State.SCAN := by
        cases hs : g1.state <;> rw [hs] at h1 <;> simp [State.rank] at h1
      simp [ih g1 this]

theorem autoSelections_le_one (P : Platform) : ∀ (evs : List Event) (g : Globals),
    autoSelections P g evs ≤ 1 := by
  intro evs
  induction evs with
  | nil => intro g; simp [autoSelections]
  | cons e rest ih =>
    intro g
    simp only [autoSelections]
    cases hst : step P g e with
    | error x => split <;> simp
    | ok g1 =>
      by_cases ha : autoSelects g e = true
      · have := autoSelections_scan P rest g1 ((step_spec P g g1 e hst).2.1 ha)
        simp [ha, this]
      · have := ih g1
        simp only [ha]
        simpa using this

/-- C18: along every sequence of passes of `loop()` and scan completions
starting at boot, the lifecycle phase never moves backward in the order
INIT < FIRST_SCAN < SCAN, a phase that follows SCAN is SCAN, and the automatic
best-channel selection made on leaving FIRST_SCAN happens at most once. -/
theorem lifecycle_forward (P : Platform) (evs : List Event) :
    (phases P boot evs).Pairwise (fun a b => a.rank ≤ b.rank) ∧
    (phases P boot evs).Pairwise (fun a b => a = State.SCAN → b = State.SCAN) ∧
    autoSelections P boot evs ≤ 1 := by
  refine ⟨phases_pairwise P evs boot, ?_, autoSelections_le_one P evs boot⟩
  refine List.Pairwise.imp ?_ (phases_pairwise P evs boot)
  intro a b hab ha
  subst ha
  cases b <;> simp [State.rank] at hab
  rfl

/-! ## Stored identifiers -/

theorem cString_append_zero : ∀ (s t : List Nat), (∀ b, b ∈ s → b ≠ 0) →
    cString (s ++ 0 :: t) = s := by
  intro s
  induction s with
  | nil => intro t _; simp [cString]
  | cons a s ih =>
    intro t h
    have ha : a ≠ 0 := h a (List.mem_cons_self _ _)
    have := ih t (fun b hb => h b (List.mem_cons_of_mem _ hb))
    unfold cString at this ⊢
    have hd : decide (a ≠ 0) = true := decide_eq_true ha
    rw [List.cons_append, List.takeWhile_cons, hd, if_pos rfl, this]

/-- An identifier of at most 14 bytes: the buffer holds it, padded with zeros. -/
theorem storeSsid_short (s : List Nat) (hs : s.length ≤ MAX_SSID_LENGTH) :
    storeSsid s = s ++ List.replicate (MAX_SSID_LENGTH + 1 - s.length) 0 := by
  unfold MAX_SSID_LENGTH at hs
  have hl : ¬ (s.length % 256 > MAX_SSID_LENGTH) := by unfold MAX_SSID_LENGTH; omega
  unfold storeSsid
  simp only []
  rw [if_neg hl, List.take_append_eq_append_take, List.take_of_length_le (by unfold MAX_SSID_LENGTH; omega),
    List.take_replicate]
  congr 2
  unfold MAX_SSID_LENGTH
  omega

/-- An identifier of 15 to 255 bytes: the buffer holds its first 13 bytes, the
marker 127 and the terminator. -/
theorem storeSsid_long (s : List Nat) (hlong : MAX_SSID_LENGTH < s.length) (h256 : s.length < 256) :
    storeSsid s = s.take 13 ++ [127, 0] := by
  unfold MAX_SSID_LENGTH at hlong
  rcases s with _ | ⟨x0, s⟩
  · simp at hlong; try omega
  rcases s with _ | ⟨x1, s⟩
  · simp at hlong; try omega
  rcases s with _ | ⟨x2, s⟩
  · simp at hlong; try omega
  rcases s with _ | ⟨x3, s⟩
  · simp at hlong; try omega
  rcases s with _ | ⟨x4, s⟩
  · simp at hlong; try omega
  rcases s with _ | ⟨x5, s⟩
  · simp at hlong; try omega
  rcases s with _ | ⟨x6, s⟩
  · simp at hlong; try omega
  rcases s with _ | ⟨x7, s⟩
  · simp at hlong; try omega
  rcases s with _ | ⟨x8, s⟩
  · simp at hlong; try omega
  rcases s with _ | ⟨x9, s⟩
  · simp at hlong; try omega
  rcases s with _ | ⟨x10, s⟩
  · simp at hlong; try omega
  rcases s with _ | ⟨x11, s⟩
  · simp at hlong; try omega
  rcases s with _ | ⟨x12, s⟩
  · simp at hlong; try omega
  rcases s with _ | ⟨x13, s⟩
  · simp at hlong; try omega
  rcases s with _ | ⟨x14, s⟩
  · simp at hlong; try omega
  have hl : (List.length (x0 :: x1 :: x2 :: x3 :: x4 :: x5 :: x6 :: x7 :: x8 :: x9 :: x10 :: x11 :: x12 :: x13 :: x14 :: s)) % 256 > MAX_SSID_LENGTH := by
    simp only [List.length_cons] at h256 ⊢
    unfold MAX_SSID_LENGTH
    omega
  unfold storeSsid
  simp only []
  rw [if_pos hl]
  rfl

/-- C13: the identifier of a stored record, read as a C string from the 15-byte
buffer: for an identifier longer than `MAX_SSID_LENGTH = 14` bytes it is the
first 13 bytes followed by the marker 127, 14 bytes in all; an identifier of at
most 14 bytes is stored unchanged.  The identifier is a C string (no zero byte)
of fewer than 256 bytes, the range of the 8-bit length `l` of line 271; the
names of a scan result have at most 32 bytes. -/
theorem storedRecord_ssid (rec : RawRecord) (hnz : ∀ b, b ∈ rec.ssid → b ≠ 0)
    (h256 : rec.ssid.length < 256) :
    if MAX_SSID_LENGTH < rec.ssid.length then
      cString (storedRecord rec).ssid = rec.ssid.take 13 ++ [127] ∧
      (cString (storedRecord rec).ssid).length = 14
    else cString (storedRecord rec).ssid = rec.ssid := by
  show if MAX_SSID_LENGTH < rec.ssid.length then
      cString (storeSsid rec.ssid) = rec.ssid.take 13 ++ [127] ∧
      (cString (storeSsid rec.ssid)).length = 14
    else cString (storeSsid rec.ssid) = rec.ssid
  split
  · rename_i hlong
    have e : storeSsid rec.ssid = (rec.ssid.take 13 ++ [127]) ++ 0 :: [] := by
      rw [storeSsid_long rec.ssid hlong h256]; simp
    have hc : cString (storeSsid rec.ssid) = rec.ssid.take 13 ++ [127] := by
      rw [e]
      apply cString_append_zero
      intro b hb
      rcases List.mem_append.mp hb with h | h
      · exact hnz b (List.mem_of_mem_take h)
      · simp at h; omega
    refine ⟨hc, ?_⟩
    rw [hc]
    unfold MAX_SSID_LENGTH at hlong
    simp
    omega
  · rename_i hshort
    have hs : rec.ssid.length ≤ MAX_SSID_LENGTH := Nat.le_of_not_lt hshort
    rw [storeSsid_short rec.ssid hs]
    obtain ⟨k, hk⟩ : ∃ k, MAX_SSID_LENGTH + 1 - rec.ssid.length = k + 1 :=
      ⟨MAX_SSID_LENGTH - rec.ssid.length, by omega⟩
    rw [hk, List.replicate_succ]
    exact cString_append_zero _ _ hnz

theorem storedRecord_ssid_witness :
    (∀ b, b ∈ longNamed.ssid → b ≠ 0) ∧ longNamed.ssid.length < 256 ∧
    if MAX_SSID_LENGTH < longNamed.ssid.length then
      cString (storedRecord longNamed).ssid = longNamed.ssid.take 13 ++ [127] ∧
      (cString (storedRecord longNamed).ssid).length = 14
    else cString (storedRecord longNamed).ssid = longNamed.ssid :=
  ⟨by decide, by decide, storedRecord_ssid longNamed (by decide) (by decide)⟩

/-! ## The decay pass, bit by bit -/

/-- C16: for every non-zero 16-bit frame-buffer word `p`, with `c` the
byte-swapped `p` and `(r, g, b) = (c >> 11, (c >> 5) & 0x3f, c & 0x1f)`, the
decay pass writes the byte-swapped word
`max(r-1, 0) << 11 | max(g-2, 0) << 5 | max(b-1, 0)`; a zero word is left as
it is. -/
theorem decayPixel_packs (p : Nat) (hp : p < 65536) (_h0 : p ≠ 0) :
    decayPixel p =
      swapBytes
        ((max ((swapBytes p >>> 11 : Nat) - 1 : Int) 0).toNat <<< 11 |||
         (max (((swapBytes p >>> 5) &&& 0x3f : Nat) - 2 : Int) 0).toNat <<< 5 |||
         (max ((swapBytes p &&& 0x1f : Nat) - 1 : Int) 0).toNat) ∧
    decayPixel 0 = 0 := by
  refine ⟨?_, by decide⟩
  have hs := swapBytes_lt p
  have hr : decodeR (swapBytes p) = swapBytes p >>> 11 := by
    unfold decodeR
    rw [Nat.shiftRight_eq_div_pow]
    norm_num
    omega
  have hg : decodeG (swapBytes p) = (swapBytes p >>> 5) &&& 0x3f := by
    have h63 := Nat.and_pow_two_sub_one_eq_mod (swapBytes p >>> 5) 6
    norm_num at h63
    unfold decodeG
    rw [h63]
    omega
  have hb : decodeB (swapBytes p) = swapBytes p &&& 0x1f := by
    have h31 := Nat.and_pow_two_sub_one_eq_mod (swapBytes p) 5
    norm_num at h31
    unfold decodeB
    rw [h31]
    omega
  have f1 : ∀ x : Nat, (max ((x : Int) - 1) 0).toNat = fadeBy1 x := by
    intro x; unfold fadeBy1; split <;> omega
  have f2 : ∀ x : Nat, (max ((x : Int) - 2) 0).toNat = fadeBy2 x := by
    intro x; unfold fadeBy2; split <;> omega
  rw [f1, f2, f1, ← hr, ← hg, ← hb, decayPixel_eq p hp]
  have hr' := decodeR_eq _ hs
  have hg' := decodeG_eq (swapBytes p)
  have hb' := decodeB_eq (swapBytes p)
  have hg1 : fadeBy2 (decodeG (swapBytes p)) < 64 := by unfold fadeBy2; split <;> omega
  have hb1 : fadeBy1 (decodeB (swapBytes p)) < 32 := by unfold fadeBy1; split <;> omega
  rw [pack_eq _ _ _ hg1 hb1]
  rfl

theorem decayPixel_packs_witness :
    (0x1234 : Nat) < 65536 ∧ (0x1234 : Nat) ≠ 0 ∧
    decayPixel 0x1234 =
      swapBytes
        ((max ((swapBytes 0x1234 >>> 11 : Nat) - 1 : Int) 0).toNat <<< 11 |||
         (max (((swapBytes 0x1234 >>> 5) &&& 0x3f : Nat) - 2 : Int) 0).toNat <<< 5 |||
         (max ((swapBytes 0x1234 &&& 0x1f : Nat) - 1 : Int) 0).toNat) :=
  ⟨by decide, by decide, (decayPixel_packs 0x1234 (by decide) (by decide)).1⟩

/-! ## Navigation from the selection "none" -/

/-- From the selection 0xff a request to the left reads `quality[254]`, whatever
the array holds; a request to the right reads nothing and keeps 0xff. -/
theorem seekNextChannel_from_none (quality : Nat → Nat) :
    seekNextChannel quality 0xff false = .error Fault.outOfBounds ∧
    seekNextChannel quality 0xff true = .ok 0xff := by
  constructor
  · simp [seekNextChannel, seekLeft, CHANNELS]
  · simp [seekNextChannel, seekRight]

/-- On a 128-row display with 5-pixel glyphs the width is scaled from 116 to
2088/19 (a little under 110) and the height from 58 to 57. -/
theorem zoom_sample :
    (GRAPH_WIDTH : ℚ) * GRAPH_ZOOM_X samplePlatform = 2088 / 19 ∧
    (GRAPH_HEIGHT samplePlatform : ℚ) * GRAPH_ZOOM_Y = 57 := by
  have hw : GRAPH_WIDTH = 116 := by decide
  have hb : BAR_HEIGHT samplePlatform = 38 := by decide
  have hg : GRAPH_HEIGHT samplePlatform = 58 := by decide
  unfold GRAPH_ZOOM_X GRAPH_ZOOM_Y
  rw [hw, hb, hg]
  norm_num

/-! ## Buckets after overflow -/

/-- C15 fails on five networks on channel 1 followed by one on channel 2: the
fifth is written to `ap[0][4]`, the cell of `ap[1][0]`, the network of channel 2
overwrites it, and the sort of channel 1 runs over five cells.  Bucket 0 ends
with the network of channel 2 ("F") in slot 0 and without "B"; bucket 1 holds
"B", a network of channel 1; "E" is in no cell. -/
theorem parseNetworks_crossTalk :
    ∃ g, parseNetworks 256 crossTalk boot = .ok g ∧
      g.devices 0 = 5 ∧ g.devices 1 = 1 ∧
      (bucket g 0).map (fun r => r.ssid.take 1) = [[70], [68], [67], [65]] ∧
      (bucket g 1).map (fun r => r.ssid.take 1) = [[66]] ∧
      (arrivals crossTalk 0).map (fun r => r.ssid) = [[65], [66], [67], [68], [69]] ∧
      (arrivals crossTalk 1).map (fun r => r.ssid) = [[70]] ∧
      (List.range AP_CELLS).all (fun k => decide ((g.ap k).ssid.take 1 ≠ [69])) = true :=
  ⟨_, rfl, rfl, rfl, rfl, rfl, rfl, rfl, rfl⟩

/-! ## The cells of `ap` after ingestion without overflow -/

end WiFiScanner
